import Mathlib

/-!
# Auth genesis validation and the simulation manager

A shallow embedding of `x/auth/types/genesis.go` (`ValidateGenesis`) and of
`types/module/simulation.go` (`SimulationManager` and its three passes),
followed by the properties proved about them.

Conventions of the embedding.

* A Go `error` is an `Option Error`: `none` is `nil`, `some msg` is an error
  whose `Error()` text is `msg`.
* A Go `map[K]V` that is only looked up and assigned is a `GoMap K V`, a
  computable lookup function `K → Option V`.
* The map of modules is ranged over, so it is kept as a list of its entries;
  the order in which one `range` loop visits them is an explicit argument of
  the pass, a permutation of the entries.
* The methods of a module return no error. A call that fails is a panic; the
  passes are also given with calls that may panic, as loops that end at the
  first panic and return it.
-/

set_option autoImplicit false

namespace Auth

/-! ## Go maps -/

/-- A Go map seen through lookup: `m k = none` when the key is absent. -/
abbrev GoMap (κ ν : Type) := κ → Option ν

/-- The result of `make(map[K]V)`: no key is present. -/
def GoMap.empty {κ ν : Type} : GoMap κ ν := fun _ => none

/-- The assignment `m[k] = v`. -/
def GoMap.insert {κ ν : Type} [DecidableEq κ] (m : GoMap κ ν) (k : κ) (v : ν) : GoMap κ ν :=
  fun x => if x = k then some v else m x

/-- The `ok` of `_, ok := m[k]`. -/
def GoMap.contains {κ ν : Type} (m : GoMap κ ν) (k : κ) : Bool := (m k).isSome

/-- The assignments `m[k] = v` for the pairs of `kvs`, from first to last. -/
def GoMap.insertAll {κ ν : Type} [DecidableEq κ] (m : GoMap κ ν) (kvs : List (κ × ν)) :
    GoMap κ ν :=
  kvs.foldl (fun m kv => m.insert kv.1 kv.2) m

/-! ## `x/auth/types/genesis.go` -/

/-- The text of a Go error value. -/
abbrev Error := String

/-- The five `uint64` fields of `Params` that `ValidateGenesis` reads. -/
structure Params where
  MaxMemoCharacters : Nat
  TxSigLimit : Nat
  TxSizeCostPerByte : Nat
  SigVerifyCostED25519 : Nat
  SigVerifyCostSecp256k1 : Nat
  deriving DecidableEq, Repr

/-- A value of the interface `ValidatableAccount`, given by what its two
methods used in validation return: `GetAddress().String()` and `Validate()`. -/
structure ValidatableAccount where
  GetAddressString : String
  Validate : Option Error
  deriving DecidableEq, Repr

/-- The type `GenesisState`. -/
structure GenesisState where
  Params : Params
  Accounts : List ValidatableAccount
  deriving DecidableEq, Repr

/-- The constructor `NewGenesisState`. -/
def NewGenesisState (params : Params) (accounts : List ValidatableAccount) : GenesisState :=
  { Params := params, Accounts := accounts }

/-- The formatting verb `%d` on an unsigned integer. -/
def fmtD (n : Nat) : String := toString n

/-- The loop `for _, acc := range data.Accounts` of `ValidateGenesis`, with the
current `addrMap` as argument. -/
def validateAccounts : GoMap String Bool → List ValidatableAccount → Option Error
  | _, [] => none
  | addrMap, acc :: rest =>
    let addrStr := acc.GetAddressString
    if addrMap.contains addrStr then
      some ("duplicate account found in genesis state; address: " ++ addrStr)
    else
      let addrMap := addrMap.insert addrStr true
      match acc.Validate with
      | some err =>
        some ("invalid account found in genesis state; address: " ++ addrStr
          ++ ", error: " ++ err)
      | none => validateAccounts addrMap rest

/-- The function `ValidateGenesis`. -/
def ValidateGenesis (data : GenesisState) : Option Error :=
  if data.Params.TxSigLimit = 0 then
    some ("invalid tx signature limit: " ++ fmtD data.Params.TxSigLimit)
  else if data.Params.SigVerifyCostED25519 = 0 then
    some ("invalid ED25519 signature verification cost: "
      ++ fmtD data.Params.SigVerifyCostED25519)
  else if data.Params.SigVerifyCostSecp256k1 = 0 then
    some ("invalid SECK256k1 signature verification cost: "
      ++ fmtD data.Params.SigVerifyCostSecp256k1)
  else if data.Params.MaxMemoCharacters = 0 then
    some ("invalid max memo characters: " ++ fmtD data.Params.MaxMemoCharacters)
  else if data.Params.TxSizeCostPerByte = 0 then
    some ("invalid tx size cost per byte: " ++ fmtD data.Params.TxSizeCostPerByte)
  else
    validateAccounts GoMap.empty data.Accounts

/-! ### Predicates used to state the properties of `ValidateGenesis` -/

/-- All five parameters read by `ValidateGenesis` are non-zero. -/
def Params.AllNonZero (p : Params) : Prop :=
  p.TxSigLimit ≠ 0 ∧ p.SigVerifyCostED25519 ≠ 0 ∧ p.SigVerifyCostSecp256k1 ≠ 0 ∧
    p.MaxMemoCharacters ≠ 0 ∧ p.TxSizeCostPerByte ≠ 0

/-- At least one of the five parameters read by `ValidateGenesis` is zero. -/
def Params.SomeZero (p : Params) : Prop :=
  p.TxSigLimit = 0 ∨ p.SigVerifyCostED25519 = 0 ∨ p.SigVerifyCostSecp256k1 = 0 ∨
    p.MaxMemoCharacters = 0 ∨ p.TxSizeCostPerByte = 0

instance (p : Params) : Decidable p.AllNonZero :=
  inferInstanceAs (Decidable (_ ∧ _))

instance (p : Params) : Decidable p.SomeZero :=
  inferInstanceAs (Decidable (_ ∨ _))

/-- The address string-forms of the entries are pairwise distinct. -/
def DistinctAddresses (xs : List ValidatableAccount) : Prop :=
  xs.Pairwise (fun a b => a.GetAddressString ≠ b.GetAddressString)

instance (xs : List ValidatableAccount) : Decidable (DistinctAddresses xs) :=
  inferInstanceAs (Decidable (List.Pairwise _ xs))

/-- Entry `j` of `xs` is `a`, and an entry at an earlier index has the address
string-form of `a`. -/
def OccursEarlier (xs : List ValidatableAccount) (j : Nat) (a : ValidatableAccount) : Prop :=
  xs[j]? = some a ∧
    ∃ i b, i < j ∧ xs[i]? = some b ∧ b.GetAddressString = a.GetAddressString

/-- Entry `j` of `xs` is `a`, and `j` is the smallest index whose address
already occurred at an earlier index. -/
def FirstDuplicate (xs : List ValidatableAccount) (j : Nat) (a : ValidatableAccount) : Prop :=
  OccursEarlier xs j a ∧ ∀ k b, k < j → ¬ OccursEarlier xs k b

/-- Entry `j` of `xs` is `a`, its `Validate()` fails with message `msg`, and
every entry at an earlier index passes `Validate()`. -/
def FirstInvalid (xs : List ValidatableAccount) (j : Nat) (a : ValidatableAccount)
    (msg : Error) : Prop :=
  xs[j]? = some a ∧ a.Validate = some msg ∧
    ∀ i b, i < j → xs[i]? = some b → b.Validate = none

/-- The entries `pre` go through the loop of `ValidateGenesis` started with
`addrMap`: none is a duplicate and none fails `Validate()`. -/
def PassesFrom (addrMap : GoMap String Bool) (pre : List ValidatableAccount) : Prop :=
  (∀ b ∈ pre, addrMap.contains b.GetAddressString = false) ∧
    (pre.map (fun b => b.GetAddressString)).Nodup ∧ ∀ b ∈ pre, b.Validate = none

/-- The messages of the five parameter errors of `ValidateGenesis`. -/
def paramErrors : List Error :=
  [ "invalid tx signature limit: 0",
    "invalid ED25519 signature verification cost: 0",
    "invalid SECK256k1 signature verification cost: 0",
    "invalid max memo characters: 0",
    "invalid tx size cost per byte: 0" ]

/-- The text `e` is an invalid-account error of `ValidateGenesis`. -/
def IsInvalidAccountError (e : Error) : Prop :=
  ∃ addr msg : String,
    e = "invalid account found in genesis state; address: " ++ addr ++ ", error: " ++ msg

/-- The text `e` is a duplicate-account error of `ValidateGenesis`. -/
def IsDuplicateAccountError (e : Error) : Prop :=
  ∃ addr : String, e = "duplicate account found in genesis state; address: " ++ addr

/-! ### Concrete genesis states -/

/-- A parameter block with all five parameters non-zero and `TxSigLimit = 7`. -/
def sampleParams : Params :=
  { MaxMemoCharacters := 256, TxSigLimit := 7, TxSizeCostPerByte := 10,
    SigVerifyCostED25519 := 590, SigVerifyCostSecp256k1 := 1000 }

/-- The block `sampleParams` with `TxSizeCostPerByte` set to zero. -/
def zeroSizeCostParams : Params := { sampleParams with TxSizeCostPerByte := 0 }

/-- Two valid entries with the address `addr1`, after a valid entry `addr0`. -/
def twiceAddr1 : GenesisState :=
  NewGenesisState sampleParams
    [ { GetAddressString := "addr0", Validate := none },
      { GetAddressString := "addr1", Validate := none },
      { GetAddressString := "addr1", Validate := none } ]

/-- Two entries with the address `addr1`, the first of which fails `Validate()`. -/
def invalidThenDuplicate : GenesisState :=
  NewGenesisState sampleParams
    [ { GetAddressString := "addr1", Validate := some "bad" },
      { GetAddressString := "addr1", Validate := none } ]

/-- Two entries with the address `addr1`, the second of which fails `Validate()`. -/
def duplicateItselfInvalid : GenesisState :=
  NewGenesisState sampleParams
    [ { GetAddressString := "addr1", Validate := none },
      { GetAddressString := "addr1", Validate := some "bad" } ]

/-- Three entries with distinct addresses, the second and third of which fail
`Validate()`. -/
def secondInvalid : GenesisState :=
  NewGenesisState sampleParams
    [ { GetAddressString := "addr1", Validate := none },
      { GetAddressString := "addr2", Validate := some "bad" },
      { GetAddressString := "addr3", Validate := some "worse" } ]

/-! ### The entry that decides the result of the loop -/

/-- Entry `i` of `xs` is `a`, and `a` ends the loop of `ValidateGenesis`: its
address already occurred at an earlier index, or its `Validate()` fails. -/
def Decisive (xs : List ValidatableAccount) (i : Nat) (a : ValidatableAccount) : Prop :=
  xs[i]? = some a ∧ (OccursEarlier xs i a ∨ a.Validate ≠ none)

/-- Entry `i` of `xs` is `a`, and `i` is the smallest index whose entry ends
the loop of `ValidateGenesis`. -/
def FirstDecisive (xs : List ValidatableAccount) (i : Nat) (a : ValidatableAccount) : Prop :=
  Decisive xs i a ∧ ∀ k b, k < i → ¬ Decisive xs k b

/-- Three entries: a valid `addr0`, then `addr0` again with a failing
`Validate()`, then an `addr2` with a failing `Validate()`. -/
def duplicateBeforeInvalid : GenesisState :=
  NewGenesisState sampleParams
    [ { GetAddressString := "addr0", Validate := none },
      { GetAddressString := "addr0", Validate := some "bad" },
      { GetAddressString := "addr2", Validate := some "worse" } ]

end Auth

namespace Module

open Auth (GoMap)

/-! ## `types/module/simulation.go` -/

/-- The types the simulation manager takes from other packages, and the one
operation it calls on them: `NewRand seed` is `rand.New(rand.NewSource(seed))`. -/
structure SimEnv where
  Codec : Type
  Rand : Type
  StoreDecoder : Type
  ParamChange : Type
  RawMessage : Type
  NewRand : Int → Rand

/-- The type `sdk.StoreDecoderRegistry`, a `map[string]StoreDecoder`. -/
abbrev StoreDecoderRegistry (E : SimEnv) := GoMap String E.StoreDecoder

/-- The genesis accumulator, a `map[string]json.RawMessage`. -/
abbrev GenesisMap (E : SimEnv) := GoMap String E.RawMessage

/-- The three methods of `AppModule` the manager calls. A method that mutates
an argument passed by reference returns the new value of that argument. -/
structure AppModule (E : SimEnv) where
  RegisterStoreDecoder : StoreDecoderRegistry E → StoreDecoderRegistry E
  GenerateGenesisState : E.Codec → E.Rand → GenesisMap E → E.Rand × GenesisMap E
  RandomizedParams : E.Codec → E.Rand → List E.ParamChange × E.Rand

/-- The entries of a `map[string]AppModule`. -/
abbrev ModuleMap (E : SimEnv) := List (String × AppModule E)

/-- The names of a module map; in a map they are pairwise distinct. -/
def ModuleMap.names {E : SimEnv} (m : ModuleMap E) : List String := m.map Prod.fst

/-- The type `SimulationManager`. -/
structure SimulationManager (E : SimEnv) where
  Modules : ModuleMap E
  StoreDecoders : StoreDecoderRegistry E
  ParamChanges : List E.ParamChange

/-- The constructor `NewSimulationManager`. -/
def NewSimulationManager {E : SimEnv} (moduleMap : ModuleMap E) : SimulationManager E :=
  { Modules := moduleMap
    StoreDecoders := GoMap.empty
    ParamChanges := [] }

/-- An order in which one `range` over a module map visits its entries:
every entry of the map exactly once. -/
structure RangeOrder {E : SimEnv} (modules : ModuleMap E) where
  entries : ModuleMap E
  perm : entries.Perm modules

/-- The body of the loop of `RegisterStoreDecoders`. -/
def registerStep {E : SimEnv} (sm : SimulationManager E) (module : AppModule E) :
    SimulationManager E :=
  { sm with StoreDecoders := module.RegisterStoreDecoder sm.StoreDecoders }

/-- The method `RegisterStoreDecoders`; `order` is the sequence in which the
`range` over `sm.Modules` visits the entries. -/
def RegisterStoreDecoders {E : SimEnv} (sm : SimulationManager E)
    (order : RangeOrder sm.Modules) : SimulationManager E :=
  order.entries.foldl (fun sm e => registerStep sm e.2) sm

/-- The body of the loop of `GenerateGenesisStates`. -/
def genesisStep {E : SimEnv} (cdc : E.Codec) (st : E.Rand × GenesisMap E)
    (module : AppModule E) : E.Rand × GenesisMap E :=
  module.GenerateGenesisState cdc st.1 st.2

/-- The method `GenerateGenesisStates`; it returns the final state of the
randomness source `r` and of the map `genesisState`, both passed by
reference. The manager is not written. -/
def GenerateGenesisStates {E : SimEnv} (sm : SimulationManager E)
    (order : RangeOrder sm.Modules) (cdc : E.Codec) (r : E.Rand)
    (genesisState : GenesisMap E) : E.Rand × GenesisMap E :=
  order.entries.foldl (fun st e => genesisStep cdc st e.2) (r, genesisState)

/-- The body of the loop of `RandomizedSimParamChanges`, on the manager and
the local randomness source `r`. -/
def paramsStep {E : SimEnv} (cdc : E.Codec) (st : SimulationManager E × E.Rand)
    (module : AppModule E) : SimulationManager E × E.Rand :=
  let res := module.RandomizedParams cdc st.2
  ({ st.1 with ParamChanges := st.1.ParamChanges ++ res.1 }, res.2)

/-- The method `RandomizedSimParamChanges`. -/
def RandomizedSimParamChanges {E : SimEnv} (sm : SimulationManager E)
    (order : RangeOrder sm.Modules) (cdc : E.Codec) (seed : Int) : SimulationManager E :=
  let r := E.NewRand seed
  (order.entries.foldl (fun st e => paramsStep cdc st e.2) (sm, r)).1

/-! ### The specification of a batch of parameter changes -/

/-- One batch of parameter changes as the specification words it: the modules
are called one after another, in iteration order, on one randomness source,
and their results are concatenated in that order. -/
def paramBatch {E : SimEnv} (cdc : E.Codec) : ModuleMap E → E.Rand → List E.ParamChange
  | [], _ => []
  | e :: rest, r =>
    (e.2.RandomizedParams cdc r).1 ++ paramBatch cdc rest (e.2.RandomizedParams cdc r).2

/-! ### A concrete environment and module -/

/-- An environment in which the randomness source is a counter started at the
seed, a codec is a number and a parameter change is a key with a value. -/
abbrev counterEnv : SimEnv :=
  { Codec := Nat
    Rand := Int
    StoreDecoder := String
    ParamChange := String × Int
    RawMessage := String
    NewRand := fun seed => seed }

/-- A module that registers one decoder, writes one genesis fragment and
draws one number for one parameter change; it does not read the codec. -/
def counterModule : AppModule counterEnv :=
  { RegisterStoreDecoder := fun reg => GoMap.insert reg "counter" "decodeCounter"
    GenerateGenesisState := fun _ r g => (r + 1, GoMap.insert g "counter" "fragment")
    RandomizedParams := fun _ r => ([("counter/value", r)], r + 1) }

/-- The module `counterModule` registered under the two names `a` and `b`. -/
def twoNames : ModuleMap counterEnv := [("a", counterModule), ("b", counterModule)]

/-- The entries of `twoNames` visited in the order `b`, `a`. -/
def twoNamesReversed : RangeOrder (NewSimulationManager twoNames).Modules :=
  { entries := [("b", counterModule), ("a", counterModule)]
    perm := List.Perm.swap _ _ _ }

/-! ### The genesis pass on the whole state it can reach -/

/-- The body of the loop of `GenerateGenesisStates` on the receiver and the
two arguments passed by reference: the call hands the module `cdc`, `r` and
`genesisState`, and nothing of the receiver. -/
def genesisStepOn {E : SimEnv} (cdc : E.Codec)
    (st : SimulationManager E × E.Rand × GenesisMap E) (module : AppModule E) :
    SimulationManager E × E.Rand × GenesisMap E :=
  (st.1, module.GenerateGenesisState cdc st.2.1 st.2.2)

/-- The method `GenerateGenesisStates` as a transformer of the receiver, the
randomness source and the genesis map. -/
def GenerateGenesisStatesOn {E : SimEnv} (sm : SimulationManager E)
    (order : RangeOrder sm.Modules) (cdc : E.Codec) (r : E.Rand)
    (genesisState : GenesisMap E) : SimulationManager E × E.Rand × GenesisMap E :=
  order.entries.foldl (fun st e => genesisStepOn cdc st e.2) (sm, r, genesisState)

/-! ### The passes when a call of a module may panic -/

/-- The calls that panic, for the module registered under each name: `some p`
when the call on these arguments panics with the value `p`, `none` when it
returns, with the result the `AppModule` gives. -/
structure Panics (E : SimEnv) (Ω : Type) where
  RegisterStoreDecoder : String → StoreDecoderRegistry E → Option Ω
  GenerateGenesisState : String → E.Codec → E.Rand → GenesisMap E → Option Ω
  RandomizedParams : String → E.Codec → E.Rand → Option Ω

/-- No call panics. -/
def Panics.never {E : SimEnv} {Ω : Type} : Panics E Ω :=
  { RegisterStoreDecoder := fun _ _ => none
    GenerateGenesisState := fun _ _ _ _ => none
    RandomizedParams := fun _ _ _ => none }

/-- The loop `for _, module := range sm.Modules` when the body may panic. The
loops of the manager have no `recover`: a panic ends the loop and is the
outcome, a body that returns lets the loop go on. The second component logs
the entries on which the body was run. -/
def rangeMayPanic {E : SimEnv} {σ Ω : Type} (body : σ → String × AppModule E → Except Ω σ) :
    ModuleMap E → σ → Except Ω σ × List (String × AppModule E)
  | [], s => (Except.ok s, [])
  | e :: rest, s =>
    match body s e with
    | Except.error p => (Except.error p, [e])
    | Except.ok s2 => ((rangeMayPanic body rest s2).1, e :: (rangeMayPanic body rest s2).2)

/-- The body of the loop of `RegisterStoreDecoders` when the call may panic. -/
def registerStepMayPanic {E : SimEnv} {Ω : Type} (panics : Panics E Ω)
    (sm : SimulationManager E) (e : String × AppModule E) : Except Ω (SimulationManager E) :=
  match panics.RegisterStoreDecoder e.1 sm.StoreDecoders with
  | some p => Except.error p
  | none => Except.ok (registerStep sm e.2)

/-- The body of the loop of `GenerateGenesisStates` when the call may panic. -/
def genesisStepMayPanic {E : SimEnv} {Ω : Type} (panics : Panics E Ω) (cdc : E.Codec)
    (st : E.Rand × GenesisMap E) (e : String × AppModule E) :
    Except Ω (E.Rand × GenesisMap E) :=
  match panics.GenerateGenesisState e.1 cdc st.1 st.2 with
  | some p => Except.error p
  | none => Except.ok (genesisStep cdc st e.2)

/-- The body of the loop of `RandomizedSimParamChanges` when the call may
panic. -/
def paramsStepMayPanic {E : SimEnv} {Ω : Type} (panics : Panics E Ω) (cdc : E.Codec)
    (st : SimulationManager E × E.Rand) (e : String × AppModule E) :
    Except Ω (SimulationManager E × E.Rand) :=
  match panics.RandomizedParams e.1 cdc st.2 with
  | some p => Except.error p
  | none => Except.ok (paramsStep cdc st e.2)

/-- The method `RegisterStoreDecoders` when a call may panic, with the log of
the calls made. -/
def RegisterStoreDecodersMayPanic {E : SimEnv} {Ω : Type} (panics : Panics E Ω)
    (sm : SimulationManager E) (order : RangeOrder sm.Modules) :
    Except Ω (SimulationManager E) × List (String × AppModule E) :=
  rangeMayPanic (registerStepMayPanic panics) order.entries sm

/-- The method `GenerateGenesisStates` when a call may panic, with the log of
the calls made. -/
def GenerateGenesisStatesMayPanic {E : SimEnv} {Ω : Type} (panics : Panics E Ω)
    (sm : SimulationManager E) (order : RangeOrder sm.Modules) (cdc : E.Codec) (r : E.Rand)
    (genesisState : GenesisMap E) :
    Except Ω (E.Rand × GenesisMap E) × List (String × AppModule E) :=
  rangeMayPanic (genesisStepMayPanic panics cdc) order.entries (r, genesisState)

/-- The method `RandomizedSimParamChanges` when a call may panic, with the
log of the calls made. -/
def RandomizedSimParamChangesMayPanic {E : SimEnv} {Ω : Type} (panics : Panics E Ω)
    (sm : SimulationManager E) (order : RangeOrder sm.Modules) (cdc : E.Codec) (seed : Int) :
    Except Ω (SimulationManager E × E.Rand) × List (String × AppModule E) :=
  let r := E.NewRand seed
  rangeMayPanic (paramsStepMayPanic panics cdc) order.entries (sm, r)

/-! ### Concrete modules -/

/-- A module that registers nothing, writes no fragment and returns no
parameter change. -/
def silentModule : AppModule counterEnv :=
  { RegisterStoreDecoder := fun reg => reg
    GenerateGenesisState := fun _ r g => (r, g)
    RandomizedParams := fun _ r => ([], r) }

/-- A module that returns two parameter changes and registers nothing. -/
def paramsModule : AppModule counterEnv :=
  { silentModule with
    RandomizedParams := fun _ r => ([("b/first", r), ("b/second", r + 1)], r + 2) }

/-- A module that registers the decoder `d` for the namespace `ns` and
returns no parameter change. -/
def decoderModule (ns d : String) : AppModule counterEnv :=
  { silentModule with RegisterStoreDecoder := fun reg => GoMap.insert reg ns d }

/-- The modules of the scenario: `a` silent, `b` with two parameter changes,
`c` with one decoder. -/
def scenarioModules : ModuleMap counterEnv :=
  [("a", silentModule), ("b", paramsModule), ("c", decoderModule "c" "decodeC")]

/-- The entries of `scenarioModules` visited in the order `c`, `a`, `b`. -/
def scenarioOrder (sm : SimulationManager counterEnv) (h : sm.Modules = scenarioModules) :
    RangeOrder sm.Modules :=
  { entries := [("c", decoderModule "c" "decodeC"), ("a", silentModule), ("b", paramsModule)]
    perm := by
      rw [h]
      exact (List.Perm.swap _ _ _).trans (List.Perm.cons _ (List.Perm.swap _ _ _)) }

/-! ### Two modules that register the same namespace -/

/-- Two modules that register different decoders for the namespace `bank`. -/
def bankModules : ModuleMap counterEnv :=
  [("x", decoderModule "bank" "decodeX"), ("y", decoderModule "bank" "decodeY")]

/-- What each entry of `bankModules` inserts in the registry. -/
def bankContrib (e : String × AppModule counterEnv) : List (String × String) :=
  if e.1 = "x" then [("bank", "decodeX")] else [("bank", "decodeY")]

/-- The entries of `bankModules` visited in the order `x`, `y`. -/
def bankOrderXY (sm : SimulationManager counterEnv) (h : sm.Modules = bankModules) :
    RangeOrder sm.Modules :=
  { entries := [("x", decoderModule "bank" "decodeX"), ("y", decoderModule "bank" "decodeY")]
    perm := by rw [h]; exact List.Perm.refl _ }

/-- The entries of `bankModules` visited in the order `y`, `x`. -/
def bankOrderYX (sm : SimulationManager counterEnv) (h : sm.Modules = bankModules) :
    RangeOrder sm.Modules :=
  { entries := [("y", decoderModule "bank" "decodeY"), ("x", decoderModule "bank" "decodeX")]
    perm := by rw [h]; exact List.Perm.swap _ _ _ }

/-! ### Predicates and runs used to state the properties of the passes -/

/-- The module of the entry `e` writes a fragment under the name of the entry
and leaves every other key of the genesis map as it was. -/
def OwnFragment {E : SimEnv} (cdc : E.Codec) (e : String × AppModule E) : Prop :=
  ∀ (r : E.Rand) (g : GenesisMap E),
    (e.2.GenerateGenesisState cdc r g).2 e.1 ≠ none ∧
    ∀ k, k ≠ e.1 → (e.2.GenerateGenesisState cdc r g).2 k = g k

/-- A manager freshly constructed over `m`, after `RegisterStoreDecoders` and
then `RandomizedSimParamChanges`. -/
def registerThenRandomize {E : SimEnv} (m : ModuleMap E)
    (orderR : RangeOrder (NewSimulationManager m).Modules)
    (orderP : RangeOrder (RegisterStoreDecoders (NewSimulationManager m) orderR).Modules)
    (cdc : E.Codec) (seed : Int) : SimulationManager E :=
  RandomizedSimParamChanges (RegisterStoreDecoders (NewSimulationManager m) orderR) orderP
    cdc seed

/-- The calls of `RandomizedParams` of the module registered under `a` panic
with the value `boom`; no other call panics. -/
def panicAtA : Panics counterEnv String :=
  { RegisterStoreDecoder := fun _ _ => none
    GenerateGenesisState := fun _ _ _ _ => none
    RandomizedParams := fun name _ _ => if name = "a" then some "boom" else none }

/-! ### Modules that write a fragment under their name -/

/-- A module that writes the fragment `frag` under the key `name` of the
genesis map and draws once from the randomness source. -/
def fragmentModule (name frag : String) : AppModule counterEnv :=
  { silentModule with
    GenerateGenesisState := fun _ r g => (r + 1, GoMap.insert g name frag) }

/-- Two modules registered under the names they write their fragments under. -/
def authBank : ModuleMap counterEnv :=
  [("auth", fragmentModule "auth" "authState"), ("bank", fragmentModule "bank" "bankState")]

/-- The entries of `authBank` visited in the order `bank`, `auth`. -/
def authBankReversed : RangeOrder (NewSimulationManager authBank).Modules :=
  { entries := [("bank", fragmentModule "bank" "bankState"),
      ("auth", fragmentModule "auth" "authState")]
    perm := List.Perm.swap _ _ _ }

/-! ### Modules that leave a mark of every call -/

end Module

/-! # Properties -/

namespace Auth

/-! ## Go maps -/

theorem GoMap.contains_empty {κ ν : Type} (k : κ) :
    (GoMap.empty : GoMap κ ν).contains k = false := rfl

theorem GoMap.contains_insert {κ ν : Type} [DecidableEq κ] (m : GoMap κ ν) (k x : κ) (v : ν) :
    (m.insert k v).contains x = (decide (x = k) || m.contains x) := by
  unfold GoMap.contains GoMap.insert
  by_cases h : x = k <;> simp [h]

/-! ## The loop over the accounts -/

theorem validateAccounts_cons_pass (m : GoMap String Bool) (b : ValidatableAccount)
    (rest : List ValidatableAccount) (h1 : m.contains b.GetAddressString = false)
    (h2 : b.Validate = none) :
    validateAccounts m (b :: rest) = validateAccounts (m.insert b.GetAddressString true) rest := by
  simp [validateAccounts, h1, h2]

theorem validateAccounts_cons_duplicate (m : GoMap String Bool) (a : ValidatableAccount)
    (rest : List ValidatableAccount) (h : m.contains a.GetAddressString = true) :
    validateAccounts m (a :: rest)
      = some ("duplicate account found in genesis state; address: " ++ a.GetAddressString) := by
  simp [validateAccounts, h]

theorem validateAccounts_cons_invalid (m : GoMap String Bool) (a : ValidatableAccount)
    (rest : List ValidatableAccount) (msg : Error)
    (h1 : m.contains a.GetAddressString = false) (h2 : a.Validate = some msg) :
    validateAccounts m (a :: rest)
      = some ("invalid account found in genesis state; address: " ++ a.GetAddressString
          ++ ", error: " ++ msg) := by
  simp [validateAccounts, h1, h2]

/-- After a prefix that passes, the loop continues on the rest with a map
whose keys are the old keys and the addresses of the prefix. -/
theorem validateAccounts_append_pass (pre rest : List ValidatableAccount) :
    ∀ m : GoMap String Bool, PassesFrom m pre →
      ∃ m2 : GoMap String Bool,
        validateAccounts m (pre ++ rest) = validateAccounts m2 rest ∧
        ∀ x, m2.contains x
          = (m.contains x || decide (x ∈ pre.map (fun b => b.GetAddressString))) := by
  induction pre with
  | nil => intro m _; exact ⟨m, rfl, by simp⟩
  | cons b pre ih =>
    intro m h
    obtain ⟨hm, hnd, hv⟩ := h
    have hb : m.contains b.GetAddressString = false := hm b (List.mem_cons_self _ _)
    have hbv : b.Validate = none := hv b (List.mem_cons_self _ _)
    rw [List.map_cons, List.nodup_cons] at hnd
    have hpass : PassesFrom (m.insert b.GetAddressString true) pre := by
      refine ⟨?_, hnd.2, fun c hc => hv c (List.mem_cons_of_mem _ hc)⟩
      intro c hc
      rw [GoMap.contains_insert, hm c (List.mem_cons_of_mem _ hc)]
      have hne : c.GetAddressString ≠ b.GetAddressString := by
        intro heq
        exact hnd.1 (heq ▸ List.mem_map_of_mem (fun b => b.GetAddressString) hc)
      simp [hne]
    obtain ⟨m2, hrun, hkeys⟩ := ih _ hpass
    refine ⟨m2, ?_, ?_⟩
    · rw [List.cons_append, validateAccounts_cons_pass m b _ hb hbv, hrun]
    · intro x
      rw [hkeys x, GoMap.contains_insert]
      by_cases hx : x = b.GetAddressString <;> simp [hx, Bool.or_comm]

theorem validateAccounts_of_passes (m : GoMap String Bool) (xs : List ValidatableAccount)
    (h : PassesFrom m xs) : validateAccounts m xs = none := by
  obtain ⟨m2, hrun, _⟩ := validateAccounts_append_pass xs [] m h
  rw [List.append_nil] at hrun
  rw [hrun]; rfl

theorem passes_of_validateAccounts (xs : List ValidatableAccount) :
    ∀ m : GoMap String Bool, validateAccounts m xs = none → PassesFrom m xs := by
  induction xs with
  | nil => intro m _; exact ⟨by simp, by simp, by simp⟩
  | cons b xs ih =>
    intro m h
    have hb : m.contains b.GetAddressString = false := by
      cases hc : m.contains b.GetAddressString with
      | false => rfl
      | true => rw [validateAccounts_cons_duplicate m b xs hc] at h; cases h
    have hbv : b.Validate = none := by
      cases hv : b.Validate with
      | none => rfl
      | some msg => rw [validateAccounts_cons_invalid m b xs msg hb hv] at h; cases h
    rw [validateAccounts_cons_pass m b xs hb hbv] at h
    obtain ⟨hm, hnd, hv⟩ := ih _ h
    refine ⟨?_, ?_, ?_⟩
    · intro c hc
      rcases List.mem_cons.1 hc with rfl | hc
      · exact hb
      · have := hm c hc
        rw [GoMap.contains_insert] at this
        simp only [Bool.or_eq_false_iff] at this
        exact this.2
    · rw [List.map_cons, List.nodup_cons]
      refine ⟨?_, hnd⟩
      intro hmem
      obtain ⟨c, hc, hceq⟩ := List.mem_map.1 hmem
      have := hm c hc
      rw [GoMap.contains_insert] at this
      simp [hceq] at this
    · intro c hc
      rcases List.mem_cons.1 hc with rfl | hc
      · exact hbv
      · exact hv c hc

/-! ## Indices and prefixes -/

theorem split_at_index (xs : List ValidatableAccount) (j : Nat) (a : ValidatableAccount)
    (h : xs[j]? = some a) :
    ∃ pre post, xs = pre ++ a :: post ∧ pre.length = j := by
  obtain ⟨hj, ha⟩ := List.getElem?_eq_some.1 h
  refine ⟨xs.take j, xs.drop (j + 1), ?_, ?_⟩
  · have hd : xs[j] :: xs.drop (j + 1) = xs.drop j := List.get_drop_eq_drop xs j hj
    rw [← ha, hd, List.take_append_drop]
  · rw [List.length_take]; omega

theorem distinct_iff_no_occursEarlier (xs : List ValidatableAccount) :
    DistinctAddresses xs ↔ ∀ j a, ¬ OccursEarlier xs j a := by
  unfold DistinctAddresses OccursEarlier
  rw [List.pairwise_iff_getElem]
  constructor
  · rintro h j a ⟨hja, i, b, hij, hib, heq⟩
    obtain ⟨hj, ha⟩ := List.getElem?_eq_some.1 hja
    obtain ⟨hi, hb⟩ := List.getElem?_eq_some.1 hib
    exact h i j hi hj hij (by rw [ha, hb]; exact heq)
  · intro h i j hi hj hij heq
    exact h j xs[j] ⟨List.getElem?_eq_getElem hj, i, xs[i], hij,
      List.getElem?_eq_getElem hi, heq⟩

theorem nodup_map_iff_distinct (xs : List ValidatableAccount) :
    (xs.map (fun b => b.GetAddressString)).Nodup ↔ DistinctAddresses xs := by
  unfold DistinctAddresses List.Nodup
  rw [List.pairwise_map]

theorem passesFrom_empty_iff (xs : List ValidatableAccount) :
    PassesFrom GoMap.empty xs ↔ DistinctAddresses xs ∧ ∀ b ∈ xs, b.Validate = none := by
  unfold PassesFrom
  rw [nodup_map_iff_distinct]
  constructor
  · rintro ⟨_, h2, h3⟩; exact ⟨h2, h3⟩
  · rintro ⟨h2, h3⟩; exact ⟨fun _ _ => rfl, h2, h3⟩

theorem occursEarlier_append_left (pre post : List ValidatableAccount) (k : Nat)
    (b : ValidatableAccount) (h : OccursEarlier pre k b) : OccursEarlier (pre ++ post) k b := by
  obtain ⟨hkb, i, c, hik, hic, heq⟩ := h
  have hk : k < pre.length := (List.getElem?_eq_some.1 hkb).1
  refine ⟨?_, i, c, hik, ?_, heq⟩
  · rw [List.getElem?_append_left hk]; exact hkb
  · rw [List.getElem?_append_left (by omega)]; exact hic

theorem mem_front_iff (pre post : List ValidatableAccount) (b : ValidatableAccount) :
    b ∈ pre ↔ ∃ i, i < pre.length ∧ (pre ++ post)[i]? = some b := by
  constructor
  · intro hb
    obtain ⟨i, hi⟩ := List.mem_iff_getElem?.1 hb
    have hlt : i < pre.length := (List.getElem?_eq_some.1 hi).1
    exact ⟨i, hlt, by rw [List.getElem?_append_left hlt]; exact hi⟩
  · rintro ⟨i, hlt, hi⟩
    rw [List.getElem?_append_left hlt] at hi
    exact List.getElem?_mem hi

/-- The first duplicate splits the list into a prefix with distinct
addresses, the duplicate, whose address is in the prefix, and a rest. -/
theorem firstDuplicate_split (xs : List ValidatableAccount) (j : Nat) (a : ValidatableAccount)
    (h : FirstDuplicate xs j a) :
    ∃ pre post, xs = pre ++ a :: post ∧ pre.length = j ∧
      (pre.map (fun b => b.GetAddressString)).Nodup ∧
      a.GetAddressString ∈ pre.map (fun b => b.GetAddressString) := by
  obtain ⟨⟨hja, i, b, hij, hib, heq⟩, hmin⟩ := h
  obtain ⟨pre, post, hxs, hlen⟩ := split_at_index xs j a hja
  refine ⟨pre, post, hxs, hlen, ?_, ?_⟩
  · rw [nodup_map_iff_distinct, distinct_iff_no_occursEarlier]
    intro k c hkc
    have hk : k < pre.length := (List.getElem?_eq_some.1 hkc.1).1
    exact hmin k c (by omega) (hxs ▸ occursEarlier_append_left pre (a :: post) k c hkc)
  · have hb : b ∈ pre := (mem_front_iff pre (a :: post) b).2 ⟨i, by omega, hxs ▸ hib⟩
    exact heq ▸ List.mem_map_of_mem (fun b => b.GetAddressString) hb

theorem exists_firstDuplicate (xs : List ValidatableAccount)
    (h : ∃ j a, OccursEarlier xs j a) : ∃ j a, FirstDuplicate xs j a := by
  classical
  have hmin := fun k => Nat.find_min h (m := k)
  obtain ⟨a, ha⟩ := Nat.find_spec h
  exact ⟨Nat.find h, a, ha, fun k b hk hkb => hmin k hk ⟨b, hkb⟩⟩

theorem firstInvalid_split (xs : List ValidatableAccount) (j : Nat) (a : ValidatableAccount)
    (msg : Error) (h : FirstInvalid xs j a msg) :
    ∃ pre post, xs = pre ++ a :: post ∧ pre.length = j ∧ ∀ b ∈ pre, b.Validate = none := by
  obtain ⟨hja, _, hbefore⟩ := h
  obtain ⟨pre, post, hxs, hlen⟩ := split_at_index xs j a hja
  refine ⟨pre, post, hxs, hlen, ?_⟩
  intro b hb
  obtain ⟨i, hi, hib⟩ := (mem_front_iff pre (a :: post) b).1 hb
  exact hbefore i b (by omega) (hxs ▸ hib)

theorem exists_firstInvalid (xs : List ValidatableAccount)
    (h : ∃ b ∈ xs, b.Validate ≠ none) : ∃ j a msg, FirstInvalid xs j a msg := by
  classical
  have hex : ∃ j : Nat, ∃ a : ValidatableAccount, xs[j]? = some a ∧ a.Validate ≠ none := by
    obtain ⟨b, hb, hbv⟩ := h
    obtain ⟨j, hj⟩ := List.mem_iff_getElem?.1 hb
    exact ⟨j, b, hj, hbv⟩
  obtain ⟨a, hja, hav⟩ := Nat.find_spec hex
  obtain ⟨msg, hmsg⟩ := Option.ne_none_iff_exists'.1 hav
  refine ⟨Nat.find hex, a, msg, hja, hmsg, ?_⟩
  intro i b hi hib
  by_contra hne
  exact Nat.find_min hex hi ⟨b, hib, hne⟩

/-! ## The parameter checks -/

theorem Params.someZero_iff_not_allNonZero (p : Params) : p.SomeZero ↔ ¬ p.AllNonZero := by
  unfold Params.SomeZero Params.AllNonZero
  omega

theorem ValidateGenesis_of_allNonZero (data : GenesisState) (h : data.Params.AllNonZero) :
    ValidateGenesis data = validateAccounts GoMap.empty data.Accounts := by
  obtain ⟨h1, h2, h3, h4, h5⟩ := h
  simp [ValidateGenesis, h1, h2, h3, h4, h5]

theorem ValidateGenesis_of_someZero (data : GenesisState) (h : data.Params.SomeZero) :
    ValidateGenesis data ≠ none := by
  unfold ValidateGenesis
  split_ifs with h1 h2 h3 h4 h5
  · simp
  · simp
  · simp
  · simp
  · simp
  · exact absurd h ((Params.someZero_iff_not_allNonZero _).not_left.2 ⟨h1, h2, h3, h4, h5⟩)

/-! ## The texts of the errors -/

theorem duplicate_ne_invalid (a b c : String) :
    "duplicate account found in genesis state; address: " ++ a
      ≠ "invalid account found in genesis state; address: " ++ b ++ ", error: " ++ c := by
  intro h
  have := congrArg String.data h
  simp [String.data_append] at this

theorem duplicate_not_paramError (a : String) :
    "duplicate account found in genesis state; address: " ++ a ∉ paramErrors := by
  intro h
  simp only [paramErrors, List.mem_cons, List.mem_singleton, List.not_mem_nil, or_false] at h
  rcases h with h | h | h | h | h <;>
  · have := congrArg String.data h
    simp [String.data_append] at this

theorem invalid_not_paramError (a c : String) :
    "invalid account found in genesis state; address: " ++ a ++ ", error: " ++ c
      ∉ paramErrors := by
  intro h
  simp only [paramErrors, List.mem_cons, List.mem_singleton, List.not_mem_nil, or_false] at h
  rcases h with h | h | h | h | h <;>
  · have := congrArg String.data h
    simp [String.data_append] at this

/-! ## What decides the result of the loop -/

theorem front_nodup (pre post : List ValidatableAccount) (j : Nat)
    (hmin : ∀ k c, k < j → ¬ OccursEarlier (pre ++ post) k c) (hlen : pre.length ≤ j) :
    (pre.map (fun b => b.GetAddressString)).Nodup := by
  rw [nodup_map_iff_distinct, distinct_iff_no_occursEarlier]
  intro k c hkc
  have hk : k < pre.length := (List.getElem?_eq_some.1 hkc.1).1
  exact hmin k c (by omega) (occursEarlier_append_left pre post k c hkc)

theorem not_mem_front (pre post : List ValidatableAccount) (a : ValidatableAccount)
    (hno : ¬ OccursEarlier (pre ++ a :: post) pre.length a) :
    a.GetAddressString ∉ pre.map (fun b => b.GetAddressString) := by
  intro hmem
  obtain ⟨b, hb, hbeq⟩ := List.mem_map.1 hmem
  obtain ⟨i, hi, hib⟩ := (mem_front_iff pre (a :: post) b).1 hb
  have hat : (pre ++ a :: post)[pre.length]? = some a := by
    rw [List.getElem?_append_right (Nat.le_refl _)]; simp
  exact hno ⟨hat, i, b, hi, hib, hbeq⟩

theorem validateAccounts_duplicate_at (pre post : List ValidatableAccount)
    (a : ValidatableAccount) (hpre : PassesFrom GoMap.empty pre)
    (hmem : a.GetAddressString ∈ pre.map (fun b => b.GetAddressString)) :
    validateAccounts GoMap.empty (pre ++ a :: post)
      = some ("duplicate account found in genesis state; address: " ++ a.GetAddressString) := by
  obtain ⟨m2, hrun, hkeys⟩ := validateAccounts_append_pass pre (a :: post) _ hpre
  rw [hrun]
  apply validateAccounts_cons_duplicate
  rw [hkeys]
  simp only [Bool.or_eq_true, decide_eq_true_eq]
  exact Or.inr hmem

theorem validateAccounts_invalid_at (pre post : List ValidatableAccount)
    (a : ValidatableAccount) (msg : Error) (hpre : PassesFrom GoMap.empty pre)
    (hnot : a.GetAddressString ∉ pre.map (fun b => b.GetAddressString))
    (hv : a.Validate = some msg) :
    validateAccounts GoMap.empty (pre ++ a :: post)
      = some ("invalid account found in genesis state; address: " ++ a.GetAddressString
          ++ ", error: " ++ msg) := by
  obtain ⟨m2, hrun, hkeys⟩ := validateAccounts_append_pass pre (a :: post) _ hpre
  rw [hrun]
  apply validateAccounts_cons_invalid _ _ _ _ _ hv
  rw [hkeys, GoMap.contains_empty]
  simp only [Bool.false_or, decide_eq_false_iff_not]
  exact hnot

/-- The duplicate error at the first duplicate, when the entries before it
pass `Validate()`. -/
theorem validateAccounts_firstDuplicate (xs : List ValidatableAccount) (j : Nat)
    (a : ValidatableAccount) (h : FirstDuplicate xs j a)
    (hv : ∀ i b, i < j → xs[i]? = some b → b.Validate = none) :
    validateAccounts GoMap.empty xs
      = some ("duplicate account found in genesis state; address: " ++ a.GetAddressString) := by
  obtain ⟨pre, post, hxs, hlen, hnd, hmem⟩ := firstDuplicate_split xs j a h
  subst hxs
  refine validateAccounts_duplicate_at pre post a ⟨fun _ _ => rfl, hnd, ?_⟩ hmem
  intro b hb
  obtain ⟨i, hi, hib⟩ := (mem_front_iff pre (a :: post) b).1 hb
  exact hv i b (by omega) hib

/-- The invalid-account error at the first entry that fails `Validate()`,
when no entry up to and including it repeats an earlier address. -/
theorem validateAccounts_firstInvalid (xs : List ValidatableAccount) (j : Nat)
    (a : ValidatableAccount) (msg : Error) (h : FirstInvalid xs j a msg)
    (hno : ∀ k c, k < j + 1 → ¬ OccursEarlier xs k c) :
    validateAccounts GoMap.empty xs
      = some ("invalid account found in genesis state; address: " ++ a.GetAddressString
          ++ ", error: " ++ msg) := by
  obtain ⟨pre, post, hxs, hlen, hpv⟩ := firstInvalid_split xs j a msg h
  subst hxs
  have hnd := front_nodup pre (a :: post) (j + 1) hno (by omega)
  have hnot := not_mem_front pre post a (hno pre.length a (by omega))
  exact validateAccounts_invalid_at pre post a msg ⟨fun _ _ => rfl, hnd, hpv⟩ hnot h.2.1

theorem firstDuplicate_of_split (pre post : List ValidatableAccount) (a : ValidatableAccount)
    (hnd : (pre.map (fun b => b.GetAddressString)).Nodup)
    (hmem : a.GetAddressString ∈ pre.map (fun b => b.GetAddressString)) :
    FirstDuplicate (pre ++ a :: post) pre.length a := by
  have hat : (pre ++ a :: post)[pre.length]? = some a := by
    rw [List.getElem?_append_right (Nat.le_refl _)]; simp
  obtain ⟨b, hb, hbeq⟩ := List.mem_map.1 hmem
  obtain ⟨i, hi, hib⟩ := (mem_front_iff pre (a :: post) b).1 hb
  refine ⟨⟨hat, i, b, hi, hib, hbeq⟩, ?_⟩
  rintro k c hk ⟨hkc, l, d, hlk, hld, heq⟩
  rw [List.getElem?_append_left hk] at hkc
  rw [List.getElem?_append_left (by omega)] at hld
  rw [nodup_map_iff_distinct, distinct_iff_no_occursEarlier] at hnd
  exact hnd k c ⟨hkc, l, d, hlk, hld, heq⟩

theorem firstInvalid_of_split (pre post : List ValidatableAccount) (a : ValidatableAccount)
    (msg : Error) (hpre : ∀ b ∈ pre, b.Validate = none) (hv : a.Validate = some msg) :
    FirstInvalid (pre ++ a :: post) pre.length a msg := by
  have hat : (pre ++ a :: post)[pre.length]? = some a := by
    rw [List.getElem?_append_right (Nat.le_refl _)]; simp
  refine ⟨hat, hv, ?_⟩
  intro i b hi hib
  exact hpre b ((mem_front_iff pre (a :: post) b).2 ⟨i, hi, hib⟩)

theorem validateAccounts_ne_none_of_occursEarlier (xs : List ValidatableAccount)
    (h : ∃ j a, OccursEarlier xs j a) : validateAccounts GoMap.empty xs ≠ none := by
  intro hnone
  obtain ⟨j, a, hja⟩ := h
  have hd := ((passesFrom_empty_iff xs).1 (passes_of_validateAccounts xs _ hnone)).1
  exact (distinct_iff_no_occursEarlier xs).1 hd j a hja

/-! ## The claims on `ValidateGenesis` -/

/-- Claim C1. `ValidateGenesis` returns nil exactly when all five parameters
are non-zero, the address string-forms of the account entries are pairwise
distinct, and the `Validate()` of every account entry returns nil. -/
theorem ValidateGenesis_eq_none_iff (data : GenesisState) :
    ValidateGenesis data = none ↔
      (data.Params.TxSigLimit ≠ 0 ∧ data.Params.SigVerifyCostED25519 ≠ 0 ∧
        data.Params.SigVerifyCostSecp256k1 ≠ 0 ∧ data.Params.MaxMemoCharacters ≠ 0 ∧
        data.Params.TxSizeCostPerByte ≠ 0) ∧
      data.Accounts.Pairwise (fun a b => a.GetAddressString ≠ b.GetAddressString) ∧
      ∀ acc ∈ data.Accounts, acc.Validate = none := by
  constructor
  · intro h
    have hp : data.Params.AllNonZero := by
      by_contra hnot
      exact ValidateGenesis_of_someZero data
        ((Params.someZero_iff_not_allNonZero _).2 hnot) h
    rw [ValidateGenesis_of_allNonZero data hp] at h
    exact ⟨hp, (passesFrom_empty_iff _).1 (passes_of_validateAccounts _ _ h)⟩
  · rintro ⟨hp, hd, hv⟩
    rw [ValidateGenesis_of_allNonZero data hp]
    exact validateAccounts_of_passes _ _ ((passesFrom_empty_iff _).2 ⟨hd, hv⟩)

/-- Claim C2. On a genesis state made of a parameter block and an account
list with pairwise distinct addresses whose entries all pass `Validate()`,
`ValidateGenesis` returns an error exactly when at least one of the five
parameters is zero. -/
theorem ValidateGenesis_error_iff_someZero (p : Params) (accounts : List ValidatableAccount)
    (hd : accounts.Pairwise (fun a b => a.GetAddressString ≠ b.GetAddressString))
    (hv : ∀ acc ∈ accounts, acc.Validate = none) :
    ValidateGenesis (NewGenesisState p accounts) ≠ none ↔
      (p.TxSigLimit = 0 ∨ p.SigVerifyCostED25519 = 0 ∨ p.SigVerifyCostSecp256k1 = 0 ∨
        p.MaxMemoCharacters = 0 ∨ p.TxSizeCostPerByte = 0) := by
  constructor
  · intro h
    by_contra hnot
    have hp : (NewGenesisState p accounts).Params.AllNonZero := by
      by_contra hp
      exact hnot ((Params.someZero_iff_not_allNonZero p).2 hp)
    apply h
    rw [ValidateGenesis_of_allNonZero _ hp]
    exact validateAccounts_of_passes _ _ ((passesFrom_empty_iff _).2 ⟨hd, hv⟩)
  · intro h
    exact ValidateGenesis_of_someZero (NewGenesisState p accounts) h

/-- The instance of C2 at a block whose only zero parameter is
`TxSizeCostPerByte`, with two valid entries of distinct addresses. -/
theorem ValidateGenesis_error_iff_someZero_witness :
    ValidateGenesis (NewGenesisState zeroSizeCostParams
        [ { GetAddressString := "addr0", Validate := none },
          { GetAddressString := "addr1", Validate := none } ]) ≠ none :=
  (ValidateGenesis_error_iff_someZero zeroSizeCostParams
    [ { GetAddressString := "addr0", Validate := none },
      { GetAddressString := "addr1", Validate := none } ]
    (by decide) (by decide)).2 (by decide)

/-- Claim C3. When at least one of the five parameters is zero,
`ValidateGenesis` returns the error naming the first zero parameter in the
order `TxSigLimit`, `SigVerifyCostED25519`, `SigVerifyCostSecp256k1`,
`MaxMemoCharacters`, `TxSizeCostPerByte`, whatever the account list holds. -/
theorem ValidateGenesis_first_zero_param (p : Params) (accounts : List ValidatableAccount) :
    (p.TxSigLimit = 0 →
      ValidateGenesis (NewGenesisState p accounts) = some "invalid tx signature limit: 0") ∧
    (p.TxSigLimit ≠ 0 → p.SigVerifyCostED25519 = 0 →
      ValidateGenesis (NewGenesisState p accounts)
        = some "invalid ED25519 signature verification cost: 0") ∧
    (p.TxSigLimit ≠ 0 → p.SigVerifyCostED25519 ≠ 0 → p.SigVerifyCostSecp256k1 = 0 →
      ValidateGenesis (NewGenesisState p accounts)
        = some "invalid SECK256k1 signature verification cost: 0") ∧
    (p.TxSigLimit ≠ 0 → p.SigVerifyCostED25519 ≠ 0 → p.SigVerifyCostSecp256k1 ≠ 0 →
      p.MaxMemoCharacters = 0 →
      ValidateGenesis (NewGenesisState p accounts) = some "invalid max memo characters: 0") ∧
    (p.TxSigLimit ≠ 0 → p.SigVerifyCostED25519 ≠ 0 → p.SigVerifyCostSecp256k1 ≠ 0 →
      p.MaxMemoCharacters ≠ 0 → p.TxSizeCostPerByte = 0 →
      ValidateGenesis (NewGenesisState p accounts) = some "invalid tx size cost per byte: 0") := by
  refine ⟨?_, ?_, ?_, ?_, ?_⟩
  · intro h1
    simp only [ValidateGenesis, NewGenesisState, h1, if_true]; rfl
  · intro h1 h2
    simp only [ValidateGenesis, NewGenesisState, h1, h2, if_true, if_false]; rfl
  · intro h1 h2 h3
    simp only [ValidateGenesis, NewGenesisState, h1, h2, h3, if_true, if_false]; rfl
  · intro h1 h2 h3 h4
    simp only [ValidateGenesis, NewGenesisState, h1, h2, h3, h4, if_true, if_false]; rfl
  · intro h1 h2 h3 h4 h5
    simp only [ValidateGenesis, NewGenesisState, h1, h2, h3, h4, h5, if_true, if_false]; rfl

/-- The instance of C3 at a block whose only zero parameter is
`TxSizeCostPerByte`, with an account list that holds a duplicate and an
entry failing `Validate()`. -/
theorem ValidateGenesis_first_zero_param_witness :
    ValidateGenesis (NewGenesisState zeroSizeCostParams invalidThenDuplicate.Accounts)
      = some "invalid tx size cost per byte: 0" :=
  (ValidateGenesis_first_zero_param zeroSizeCostParams invalidThenDuplicate.Accounts).2.2.2.2
    (by decide) (by decide) (by decide) (by decide) (by decide)

/-- Claim C4. With all five parameters non-zero, every entry passing
`Validate()` and some address occurring at two positions, `ValidateGenesis`
fails with the duplicate-account error for the address of the entry at the
smallest index whose address already occurred at an earlier index; that
error is neither a parameter error nor an invalid-account error. -/
theorem ValidateGenesis_duplicate (data : GenesisState) (hp : data.Params.AllNonZero)
    (hv : ∀ acc ∈ data.Accounts, acc.Validate = none)
    (hdup : ∃ j a, OccursEarlier data.Accounts j a) :
    (∃ j a, FirstDuplicate data.Accounts j a) ∧
    ∀ j a, FirstDuplicate data.Accounts j a →
      ValidateGenesis data
        = some ("duplicate account found in genesis state; address: " ++ a.GetAddressString) ∧
      "duplicate account found in genesis state; address: " ++ a.GetAddressString
        ∉ paramErrors ∧
      ¬ IsInvalidAccountError
        ("duplicate account found in genesis state; address: " ++ a.GetAddressString) := by
  refine ⟨exists_firstDuplicate _ hdup, ?_⟩
  intro j a hfirst
  refine ⟨?_, duplicate_not_paramError _, ?_⟩
  · rw [ValidateGenesis_of_allNonZero data hp]
    exact validateAccounts_firstDuplicate _ j a hfirst
      (fun i b _ hib => hv b (List.getElem?_mem hib))
  · rintro ⟨addr, msg, h⟩
    exact duplicate_ne_invalid _ _ _ h

/-- The instance of C4 at `TxSigLimit = 7` with the address `addr1` at the
indices 1 and 2: the error references `addr1`. -/
theorem ValidateGenesis_duplicate_witness :
    ValidateGenesis twiceAddr1
      = some "duplicate account found in genesis state; address: addr1" :=
  ((ValidateGenesis_duplicate twiceAddr1 (by decide) (by decide)
      ⟨2, { GetAddressString := "addr1", Validate := none },
        rfl, 1, { GetAddressString := "addr1", Validate := none }, by decide, rfl, rfl⟩).2
    2 { GetAddressString := "addr1", Validate := none }
    ⟨⟨rfl, 1, { GetAddressString := "addr1", Validate := none }, by decide, rfl, rfl⟩, by
      intro k b hk hocc
      obtain ⟨hkb, i, c, hik, hic, heq⟩ := hocc
      have hk1 : k = 1 := by omega
      have hi0 : i = 0 := by omega
      subst hk1 hi0
      simp only [twiceAddr1, NewGenesisState] at hkb hic
      cases hkb; cases hic
      exact absurd heq (by decide)⟩).1

/-- Claim C5, refuted as stated. Two entries share the address `addr1` and
the five parameters are non-zero, yet the first entry fails `Validate()`
before the duplicate is reached: the result is the invalid-account error and
no duplicate-account error. -/
theorem ValidateGenesis_duplicate_any_validity_counterexample :
    invalidThenDuplicate.Params.AllNonZero ∧
    FirstDuplicate invalidThenDuplicate.Accounts 1
      { GetAddressString := "addr1", Validate := none } ∧
    ValidateGenesis invalidThenDuplicate
      = some "invalid account found in genesis state; address: addr1, error: bad" ∧
    ¬ ∃ e, ValidateGenesis invalidThenDuplicate = some e ∧ IsDuplicateAccountError e := by
  refine ⟨by decide, ?_, by decide, ?_⟩
  · exact firstDuplicate_of_split [{ GetAddressString := "addr1", Validate := some "bad" }] []
      { GetAddressString := "addr1", Validate := none } (by decide) (by decide)
  · rintro ⟨e, he, addr, hdup⟩
    have hval : ValidateGenesis invalidThenDuplicate
        = some ("invalid account found in genesis state; address: " ++ "addr1"
            ++ ", error: " ++ "bad") := by decide
    rw [hval] at he
    cases he
    exact duplicate_ne_invalid _ _ _ hdup.symm

/-- Claim C5, amended. With all five parameters non-zero and two entries
sharing an address, `ValidateGenesis` fails. When every entry before the
first duplicate passes `Validate()` the error is the duplicate-account error
for the address of the first duplicate, whatever the later entries and the
duplicate itself return from `Validate()`; when an entry before the first
duplicate fails `Validate()`, the error is the invalid-account error of the
first such entry. -/
theorem ValidateGenesis_duplicate_after_valid_entries (data : GenesisState)
    (hp : data.Params.AllNonZero) (hdup : ∃ j a, OccursEarlier data.Accounts j a) :
    ValidateGenesis data ≠ none ∧
    (∃ j a, FirstDuplicate data.Accounts j a) ∧
    ∀ j a, FirstDuplicate data.Accounts j a →
      ((∀ i b, i < j → data.Accounts[i]? = some b → b.Validate = none) →
        ValidateGenesis data
          = some ("duplicate account found in genesis state; address: "
              ++ a.GetAddressString)) ∧
      (∀ i b msg, i < j → FirstInvalid data.Accounts i b msg →
        ValidateGenesis data
          = some ("invalid account found in genesis state; address: " ++ b.GetAddressString
              ++ ", error: " ++ msg)) := by
  rw [ValidateGenesis_of_allNonZero data hp]
  refine ⟨validateAccounts_ne_none_of_occursEarlier _ hdup, exists_firstDuplicate _ hdup, ?_⟩
  intro j a hfirst
  refine ⟨validateAccounts_firstDuplicate _ j a hfirst, ?_⟩
  intro i b msg hij hinv
  exact validateAccounts_firstInvalid _ i b msg hinv
    (fun k c hk => hfirst.2 k c (by omega))

/-- The instance of the amended C5 at two entries with the address `addr1`
of which the second, the duplicate, would itself fail `Validate()`. -/
theorem ValidateGenesis_duplicate_after_valid_entries_witness :
    ValidateGenesis duplicateItselfInvalid
      = some "duplicate account found in genesis state; address: addr1" :=
  ((ValidateGenesis_duplicate_after_valid_entries duplicateItselfInvalid (by decide)
      ⟨1, { GetAddressString := "addr1", Validate := some "bad" },
        rfl, 0, { GetAddressString := "addr1", Validate := none }, by decide, rfl, rfl⟩).2.2
    1 { GetAddressString := "addr1", Validate := some "bad" }
    (firstDuplicate_of_split [{ GetAddressString := "addr1", Validate := none }] []
      { GetAddressString := "addr1", Validate := some "bad" } (by decide) (by decide))).1
    (by
      intro i b hi hib
      have hi0 : i = 0 := by omega
      subst hi0
      cases hib
      rfl)

/-- Claim C6. With all five parameters non-zero and pairwise distinct
addresses, `ValidateGenesis` returns an error exactly when the `Validate()`
of at least one entry returns an error; the error is then the invalid-account
error carrying the address of the first entry, in sequence order, whose
`Validate()` fails, and the message of that entry. -/
theorem ValidateGenesis_invalid_account (data : GenesisState) (hp : data.Params.AllNonZero)
    (hd : data.Accounts.Pairwise (fun a b => a.GetAddressString ≠ b.GetAddressString)) :
    (ValidateGenesis data ≠ none ↔ ∃ acc ∈ data.Accounts, acc.Validate ≠ none) ∧
    (ValidateGenesis data ≠ none → ∃ j a msg, FirstInvalid data.Accounts j a msg) ∧
    ∀ j a msg, FirstInvalid data.Accounts j a msg →
      ValidateGenesis data
        = some ("invalid account found in genesis state; address: " ++ a.GetAddressString
            ++ ", error: " ++ msg) := by
  have hiff : ValidateGenesis data ≠ none ↔ ∃ acc ∈ data.Accounts, acc.Validate ≠ none := by
    rw [ValidateGenesis_of_allNonZero data hp]
    constructor
    · intro h
      by_contra hno
      apply h
      apply validateAccounts_of_passes
      refine (passesFrom_empty_iff _).2 ⟨hd, ?_⟩
      intro b hb
      by_contra hbv
      exact hno ⟨b, hb, hbv⟩
    · rintro ⟨acc, hacc, haccv⟩ hnone
      exact haccv (((passesFrom_empty_iff _).1
        (passes_of_validateAccounts _ _ hnone)).2 acc hacc)
  refine ⟨hiff, fun h => exists_firstInvalid _ (hiff.1 h), ?_⟩
  intro j a msg hinv
  rw [ValidateGenesis_of_allNonZero data hp]
  exact validateAccounts_firstInvalid _ j a msg hinv
    (fun k c _ => (distinct_iff_no_occursEarlier _).1 hd k c)

/-- The instance of C6 at three entries of distinct addresses of which the
second and the third fail `Validate()`: the error is that of the second. -/
theorem ValidateGenesis_invalid_account_witness :
    ValidateGenesis secondInvalid
      = some "invalid account found in genesis state; address: addr2, error: bad" :=
  (ValidateGenesis_invalid_account secondInvalid (by decide) (by decide)).2.2
    1 { GetAddressString := "addr2", Validate := some "bad" } "bad"
    (firstInvalid_of_split [{ GetAddressString := "addr1", Validate := none }]
      [{ GetAddressString := "addr3", Validate := some "worse" }]
      { GetAddressString := "addr2", Validate := some "bad" } "bad" (by decide) rfl)

/-! ## The single pass, appended entries and reordered entries -/

theorem occursEarlier_mem_front (pre post : List ValidatableAccount) (a : ValidatableAccount)
    (h : OccursEarlier (pre ++ a :: post) pre.length a) :
    a.GetAddressString ∈ pre.map (fun b => b.GetAddressString) := by
  obtain ⟨_, i, b, hi, hib, heq⟩ := h
  have hb : b ∈ pre := (mem_front_iff pre (a :: post) b).2 ⟨i, hi, hib⟩
  exact heq ▸ List.mem_map_of_mem (fun b => b.GetAddressString) hb

/-- Before the first decisive entry the entries pass the loop. -/
theorem firstDecisive_split (xs : List ValidatableAccount) (i : Nat) (a : ValidatableAccount)
    (h : FirstDecisive xs i a) :
    ∃ pre post, xs = pre ++ a :: post ∧ pre.length = i ∧ PassesFrom GoMap.empty pre := by
  obtain ⟨⟨hia, _⟩, hmin⟩ := h
  obtain ⟨pre, post, hxs, hlen⟩ := split_at_index xs i a hia
  subst hxs
  refine ⟨pre, post, rfl, hlen, fun _ _ => rfl, ?_, ?_⟩
  · refine front_nodup pre (a :: post) i ?_ (by omega)
    intro k c hk hocc
    exact hmin k c hk ⟨hocc.1, Or.inl hocc⟩
  · intro b hb
    obtain ⟨k, hk, hkb⟩ := (mem_front_iff pre (a :: post) b).1 hb
    by_contra hbv
    exact hmin k b (by omega) ⟨hkb, Or.inr hbv⟩

theorem passes_of_no_decisive (xs : List ValidatableAccount)
    (h : ∀ i a, ¬ Decisive xs i a) : PassesFrom GoMap.empty xs := by
  refine (passesFrom_empty_iff xs).2 ⟨?_, ?_⟩
  · rw [distinct_iff_no_occursEarlier]
    intro j a hocc
    exact h j a ⟨hocc.1, Or.inl hocc⟩
  · intro b hb
    obtain ⟨i, hi⟩ := List.mem_iff_getElem?.1 hb
    by_contra hbv
    exact h i b ⟨hi, Or.inr hbv⟩

theorem exists_firstDecisive_or_none (xs : List ValidatableAccount) :
    (∃ i a, FirstDecisive xs i a) ∨ ∀ i a, ¬ Decisive xs i a := by
  classical
  by_cases hex : ∃ i : Nat, ∃ a : ValidatableAccount, Decisive xs i a
  · left
    obtain ⟨a, ha⟩ := Nat.find_spec hex
    exact ⟨Nat.find hex, a, ha, fun k b hk hkb => Nat.find_min hex hk ⟨b, hkb⟩⟩
  · right
    intro i a hia
    exact hex ⟨i, a, hia⟩

theorem validateAccounts_append_of_error (xs ys : List ValidatableAccount) (e : Error) :
    ∀ m : GoMap String Bool, validateAccounts m xs = some e →
      validateAccounts m (xs ++ ys) = some e := by
  induction xs with
  | nil => intro m h; simp [validateAccounts] at h
  | cons b xs ih =>
    intro m h
    rw [List.cons_append]
    cases hc : m.contains b.GetAddressString with
    | true =>
      rw [validateAccounts_cons_duplicate m b xs hc] at h
      rw [validateAccounts_cons_duplicate m b (xs ++ ys) hc]
      exact h
    | false =>
      cases hv : b.Validate with
      | some msg =>
        rw [validateAccounts_cons_invalid m b xs msg hc hv] at h
        rw [validateAccounts_cons_invalid m b (xs ++ ys) msg hc hv]
        exact h
      | none =>
        rw [validateAccounts_cons_pass m b xs hc hv] at h
        rw [validateAccounts_cons_pass m b (xs ++ ys) hc hv]
        exact ih _ h

theorem ValidateGenesis_someZero_any_accounts (p : Params) (xs ys : List ValidatableAccount)
    (h : p.SomeZero) :
    ValidateGenesis (NewGenesisState p xs) = ValidateGenesis (NewGenesisState p ys) := by
  unfold ValidateGenesis NewGenesisState
  simp only
  split_ifs with h1 h2 h3 h4 h5
  · rfl
  · rfl
  · rfl
  · rfl
  · rfl
  · exact absurd h ((Params.someZero_iff_not_allNonZero _).not_left.2 ⟨h1, h2, h3, h4, h5⟩)

theorem ValidateGenesis_none_iff_passes (data : GenesisState) :
    ValidateGenesis data = none ↔
      data.Params.AllNonZero ∧ (data.Accounts.map (fun b => b.GetAddressString)).Nodup ∧
        ∀ b ∈ data.Accounts, b.Validate = none := by
  constructor
  · intro h
    have hp : data.Params.AllNonZero := by
      by_contra hnot
      exact ValidateGenesis_of_someZero data
        ((Params.someZero_iff_not_allNonZero _).2 hnot) h
    rw [ValidateGenesis_of_allNonZero data hp] at h
    have hpass := passes_of_validateAccounts _ _ h
    exact ⟨hp, hpass.2.1, hpass.2.2⟩
  · rintro ⟨hp, hnd, hv⟩
    rw [ValidateGenesis_of_allNonZero data hp]
    exact validateAccounts_of_passes _ _ ⟨fun _ _ => rfl, hnd, hv⟩

/-- Claim C12. With non-zero parameters the result of `ValidateGenesis` is
decided by the smallest index whose entry either repeats an earlier address
or fails `Validate()`: in the first case the result is the duplicate-account
error for that address, whatever the `Validate()` of the entry returns; in
the second case it is the invalid-account error with the address and the
message of the entry; when no index is of that kind the result is nil. -/
theorem ValidateGenesis_single_pass (data : GenesisState) (hp : data.Params.AllNonZero) :
    (∀ i a, FirstDecisive data.Accounts i a →
      (OccursEarlier data.Accounts i a →
        ValidateGenesis data
          = some ("duplicate account found in genesis state; address: "
              ++ a.GetAddressString)) ∧
      (¬ OccursEarlier data.Accounts i a → ∀ msg, a.Validate = some msg →
        ValidateGenesis data
          = some ("invalid account found in genesis state; address: " ++ a.GetAddressString
              ++ ", error: " ++ msg))) ∧
    ((∀ i a, ¬ Decisive data.Accounts i a) → ValidateGenesis data = none) ∧
    ((∃ i a, FirstDecisive data.Accounts i a) ∨ ∀ i a, ¬ Decisive data.Accounts i a) := by
  rw [ValidateGenesis_of_allNonZero data hp]
  refine ⟨?_, ?_, exists_firstDecisive_or_none _⟩
  · intro i a hfirst
    obtain ⟨pre, post, hxs, hlen, hpass⟩ := firstDecisive_split _ i a hfirst
    rw [hxs]
    constructor
    · intro hocc
      rw [← hlen] at hocc
      exact validateAccounts_duplicate_at pre post a hpass
        (occursEarlier_mem_front pre post a hocc)
    · intro hnocc msg hmsg
      rw [← hlen] at hnocc
      exact validateAccounts_invalid_at pre post a msg hpass
        (not_mem_front pre post a hnocc) hmsg
  · intro hnone
    exact validateAccounts_of_passes _ _ (passes_of_no_decisive _ hnone)

/-- The instance of C12 at an entry that repeats `addr0` and would itself
fail `Validate()`, before another failing entry: the duplicate is reported. -/
theorem ValidateGenesis_single_pass_witness :
    ValidateGenesis duplicateBeforeInvalid
      = some "duplicate account found in genesis state; address: addr0" :=
  have hocc : OccursEarlier duplicateBeforeInvalid.Accounts 1
      { GetAddressString := "addr0", Validate := some "bad" } :=
    ⟨rfl, 0, { GetAddressString := "addr0", Validate := none }, by decide, rfl, rfl⟩
  ((ValidateGenesis_single_pass duplicateBeforeInvalid (by decide)).1 1
    { GetAddressString := "addr0", Validate := some "bad" }
    ⟨⟨rfl, Or.inl hocc⟩, by
      rintro k b hk ⟨hkb, hdec⟩
      have hk0 : k = 0 := by omega
      subst hk0
      cases hkb
      rcases hdec with ⟨_, i, _, hi, _⟩ | hv
      · omega
      · exact hv rfl⟩).1 hocc

/-- Claim C13. When `ValidateGenesis` returns an error on a parameter block
and an account list, it returns the same error on that block and the list
followed by any further entries. -/
theorem ValidateGenesis_append_of_error (p : Params) (xs ys : List ValidatableAccount)
    (e : Error) (h : ValidateGenesis (NewGenesisState p xs) = some e) :
    ValidateGenesis (NewGenesisState p (xs ++ ys)) = some e := by
  by_cases hp : p.AllNonZero
  · rw [ValidateGenesis_of_allNonZero (NewGenesisState p xs) hp] at h
    rw [ValidateGenesis_of_allNonZero (NewGenesisState p (xs ++ ys)) hp]
    exact validateAccounts_append_of_error xs ys e _ h
  · rw [← h]
    exact ValidateGenesis_someZero_any_accounts p (xs ++ ys) xs
      ((Params.someZero_iff_not_allNonZero p).2 hp)

/-- The instance of C13 at the accounts of `secondInvalid` followed by a
duplicate of its first entry. -/
theorem ValidateGenesis_append_of_error_witness :
    ValidateGenesis (NewGenesisState sampleParams
        (secondInvalid.Accounts ++ [{ GetAddressString := "addr1", Validate := none }]))
      = some "invalid account found in genesis state; address: addr2, error: bad" :=
  ValidateGenesis_append_of_error sampleParams secondInvalid.Accounts
    [{ GetAddressString := "addr1", Validate := none }]
    "invalid account found in genesis state; address: addr2, error: bad" (by decide)

/-- Claim C19. For every parameter block and every two account lists that
are permutations of each other, `ValidateGenesis` returns nil on one exactly
when it returns nil on the other. -/
theorem ValidateGenesis_none_perm (p : Params) (xs ys : List ValidatableAccount)
    (hperm : xs.Perm ys) :
    ValidateGenesis (NewGenesisState p xs) = none ↔
      ValidateGenesis (NewGenesisState p ys) = none := by
  rw [ValidateGenesis_none_iff_passes, ValidateGenesis_none_iff_passes]
  simp only [NewGenesisState]
  rw [(hperm.map (fun b => b.GetAddressString)).nodup_iff]
  constructor
  · rintro ⟨h1, h2, h3⟩
    exact ⟨h1, h2, fun b hb => h3 b (hperm.mem_iff.2 hb)⟩
  · rintro ⟨h1, h2, h3⟩
    exact ⟨h1, h2, fun b hb => h3 b (hperm.mem_iff.1 hb)⟩

/-- The instance of C19 at the two entries of `invalidThenDuplicate` and
their swap: both orders are rejected, with different errors. -/
theorem ValidateGenesis_none_perm_witness :
    (ValidateGenesis (NewGenesisState sampleParams
        [ { GetAddressString := "addr1", Validate := some "bad" },
          { GetAddressString := "addr1", Validate := none } ]) = none ↔
      ValidateGenesis (NewGenesisState sampleParams
        [ { GetAddressString := "addr1", Validate := none },
          { GetAddressString := "addr1", Validate := some "bad" } ]) = none) ∧
    ValidateGenesis (NewGenesisState sampleParams
        [ { GetAddressString := "addr1", Validate := some "bad" },
          { GetAddressString := "addr1", Validate := none } ])
      ≠ ValidateGenesis (NewGenesisState sampleParams
        [ { GetAddressString := "addr1", Validate := none },
          { GetAddressString := "addr1", Validate := some "bad" } ]) :=
  ⟨ValidateGenesis_none_perm sampleParams _ _ (List.Perm.swap _ _ _), by decide⟩

end Auth

namespace Module

open Auth (GoMap)

/-! ## The loops of the simulation manager -/

theorem foldl_paramsStep_paramChanges {E : SimEnv} (cdc : E.Codec) (l : ModuleMap E) :
    ∀ (sm : SimulationManager E) (r : E.Rand),
      (l.foldl (fun st e => paramsStep cdc st e.2) (sm, r)).1.ParamChanges
        = sm.ParamChanges ++ paramBatch cdc l r := by
  induction l with
  | nil => intro sm r; simp [paramBatch]
  | cons e l ih =>
    intro sm r
    rw [List.foldl_cons, paramsStep, ih]
    simp [paramBatch, List.append_assoc]

theorem paramBatch_codec_irrelevant {E : SimEnv} (c1 c2 : E.Codec) (l : ModuleMap E)
    (hfun : ∀ e ∈ l, ∀ (c c2 : E.Codec) (r : E.Rand),
      e.2.RandomizedParams c r = e.2.RandomizedParams c2 r) :
    ∀ r : E.Rand, paramBatch c1 l r = paramBatch c2 l r := by
  induction l with
  | nil => intro r; rfl
  | cons e l ih =>
    intro r
    have he := hfun e (List.mem_cons_self _ _) c1 c2 r
    simp only [paramBatch]
    rw [he, ih (fun e2 h2 => hfun e2 (List.mem_cons_of_mem _ h2))]

/-! ## Names and handles of a module map -/

/-- Claim C7. For every module map `m`, the manager `NewSimulationManager m`
has `m` itself as `Modules`, a `StoreDecoders` registry without any key, and
an empty `ParamChanges` sequence, of length zero. -/
theorem NewSimulationManager_fields {E : SimEnv} (m : ModuleMap E) :
    (NewSimulationManager m).Modules = m ∧
    (∀ namespaceKey : String, (NewSimulationManager m).StoreDecoders namespaceKey = none) ∧
    (NewSimulationManager m).ParamChanges = [] ∧
    (NewSimulationManager m).ParamChanges.length = 0 :=
  ⟨rfl, fun _ => rfl, rfl, rfl⟩

/-- Claim C8. After `RandomizedSimParamChanges`, `ParamChanges` is the
previous `ParamChanges` followed by the batch of the call: the results of
the modules, called one after another in iteration order on one randomness
source created from the seed. A second call appends a second batch after
the first and replaces nothing. -/
theorem RandomizedSimParamChanges_appends {E : SimEnv} (sm : SimulationManager E)
    (order : RangeOrder sm.Modules) (cdc : E.Codec) (seed : Int) :
    (RandomizedSimParamChanges sm order cdc seed).ParamChanges
      = sm.ParamChanges ++ paramBatch cdc order.entries (E.NewRand seed) ∧
    ∀ (order2 : RangeOrder (RandomizedSimParamChanges sm order cdc seed).Modules)
      (cdc2 : E.Codec) (seed2 : Int),
      (RandomizedSimParamChanges (RandomizedSimParamChanges sm order cdc seed)
          order2 cdc2 seed2).ParamChanges
        = sm.ParamChanges ++ paramBatch cdc order.entries (E.NewRand seed)
            ++ paramBatch cdc2 order2.entries (E.NewRand seed2) := by
  have hone : ∀ (sm : SimulationManager E) (order : RangeOrder sm.Modules) (cdc : E.Codec)
      (seed : Int), (RandomizedSimParamChanges sm order cdc seed).ParamChanges
        = sm.ParamChanges ++ paramBatch cdc order.entries (E.NewRand seed) := by
    intro sm order cdc seed
    exact foldl_paramsStep_paramChanges cdc order.entries sm (E.NewRand seed)
  refine ⟨hone sm order cdc seed, ?_⟩
  intro order2 cdc2 seed2
  rw [hone _ order2 cdc2 seed2, hone sm order cdc seed]

/-- Claim C9. For a fixed seed and a fixed sequence of visited modules whose
`RandomizedParams` depend on the state of the randomness source only, the
batch appended by `RandomizedSimParamChanges` is the same for any two
managers, whatever their `ParamChanges` and `StoreDecoders`; on two managers
with empty `ParamChanges`, as freshly constructed ones, the resulting
`ParamChanges` are identical. -/
theorem RandomizedSimParamChanges_deterministic {E : SimEnv} (sm1 sm2 : SimulationManager E)
    (order1 : RangeOrder sm1.Modules) (order2 : RangeOrder sm2.Modules)
    (cdc1 cdc2 : E.Codec) (seed : Int) (hord : order1.entries = order2.entries)
    (hfun : ∀ e ∈ order1.entries, ∀ (c c2 : E.Codec) (r : E.Rand),
      e.2.RandomizedParams c r = e.2.RandomizedParams c2 r) :
    (∃ batch : List E.ParamChange,
      (RandomizedSimParamChanges sm1 order1 cdc1 seed).ParamChanges
        = sm1.ParamChanges ++ batch ∧
      (RandomizedSimParamChanges sm2 order2 cdc2 seed).ParamChanges
        = sm2.ParamChanges ++ batch) ∧
    (sm1.ParamChanges = [] → sm2.ParamChanges = [] →
      (RandomizedSimParamChanges sm1 order1 cdc1 seed).ParamChanges
        = (RandomizedSimParamChanges sm2 order2 cdc2 seed).ParamChanges) := by
  have h1 : (RandomizedSimParamChanges sm1 order1 cdc1 seed).ParamChanges
      = sm1.ParamChanges ++ paramBatch cdc1 order1.entries (E.NewRand seed) :=
    foldl_paramsStep_paramChanges cdc1 order1.entries sm1 (E.NewRand seed)
  have h2 : (RandomizedSimParamChanges sm2 order2 cdc2 seed).ParamChanges
      = sm2.ParamChanges ++ paramBatch cdc1 order1.entries (E.NewRand seed) := by
    rw [paramBatch_codec_irrelevant cdc1 cdc2 order1.entries hfun, hord]
    exact foldl_paramsStep_paramChanges cdc2 order2.entries sm2 (E.NewRand seed)
  refine ⟨⟨_, h1, h2⟩, ?_⟩
  intro he1 he2
  rw [h1, h2, he1, he2]

/-- The instance of C9 at two freshly constructed managers over the module
map `twoNames`, both visited in the order `b`, `a`, with the seed 42 and two
different codecs. -/
theorem RandomizedSimParamChanges_deterministic_witness :
    (RandomizedSimParamChanges (NewSimulationManager twoNames) twoNamesReversed
        (0 : Nat) 42).ParamChanges
      = (RandomizedSimParamChanges (NewSimulationManager twoNames) twoNamesReversed
          (1 : Nat) 42).ParamChanges :=
  (RandomizedSimParamChanges_deterministic (NewSimulationManager twoNames)
    (NewSimulationManager twoNames) twoNamesReversed twoNamesReversed (0 : Nat) (1 : Nat) 42
    rfl (by
      intro e he c c2 r
      simp only [twoNamesReversed, List.mem_cons, List.mem_singleton, List.not_mem_nil,
        or_false] at he
      rcases he with rfl | rfl <;> rfl)).2 rfl rfl

/-! ## What the passes leave unchanged -/

theorem foldl_registerStep_frame {E : SimEnv} (l : ModuleMap E) :
    ∀ sm : SimulationManager E,
      (l.foldl (fun sm e => registerStep sm e.2) sm).Modules = sm.Modules ∧
      (l.foldl (fun sm e => registerStep sm e.2) sm).ParamChanges = sm.ParamChanges := by
  induction l with
  | nil => intro sm; exact ⟨rfl, rfl⟩
  | cons e l ih => intro sm; rw [List.foldl_cons]; exact ih (registerStep sm e.2)

theorem foldl_registerStep_storeDecoders {E : SimEnv} (l : ModuleMap E) :
    ∀ sm : SimulationManager E,
      (l.foldl (fun sm e => registerStep sm e.2) sm).StoreDecoders
        = l.foldl (fun reg e => e.2.RegisterStoreDecoder reg) sm.StoreDecoders := by
  induction l with
  | nil => intro sm; rfl
  | cons e l ih => intro sm; rw [List.foldl_cons, List.foldl_cons, ih]; rfl

theorem foldl_paramsStep_frame {E : SimEnv} (cdc : E.Codec) (l : ModuleMap E) :
    ∀ (sm : SimulationManager E) (r : E.Rand),
      (l.foldl (fun st e => paramsStep cdc st e.2) (sm, r)).1.Modules = sm.Modules ∧
      (l.foldl (fun st e => paramsStep cdc st e.2) (sm, r)).1.StoreDecoders
        = sm.StoreDecoders := by
  induction l with
  | nil => intro sm r; exact ⟨rfl, rfl⟩
  | cons e l ih => intro sm r; rw [List.foldl_cons]; exact ih _ _

theorem foldl_genesisStepOn {E : SimEnv} (cdc : E.Codec) (l : ModuleMap E) :
    ∀ (sm : SimulationManager E) (st : E.Rand × GenesisMap E),
      l.foldl (fun st e => genesisStepOn cdc st e.2) (sm, st)
        = (sm, l.foldl (fun st e => genesisStep cdc st e.2) st) := by
  induction l with
  | nil => intro sm st; rfl
  | cons e l ih => intro sm st; rw [List.foldl_cons, List.foldl_cons]; exact ih sm _

theorem RegisterStoreDecoders_modules {E : SimEnv} (sm : SimulationManager E)
    (order : RangeOrder sm.Modules) : (RegisterStoreDecoders sm order).Modules = sm.Modules :=
  (foldl_registerStep_frame order.entries sm).1

/-- Claim C14. `RegisterStoreDecoders` leaves `Modules` and `ParamChanges` as
they were; `RandomizedSimParamChanges` leaves `Modules` and `StoreDecoders`
as they were; `GenerateGenesisStates` leaves the whole manager as it was and
acts on the randomness source and the genesis map only. -/
theorem passes_frame {E : SimEnv} (sm : SimulationManager E)
    (orderR orderG orderP : RangeOrder sm.Modules) (cdc : E.Codec) (r : E.Rand)
    (genesisState : GenesisMap E) (seed : Int) :
    ((RegisterStoreDecoders sm orderR).Modules = sm.Modules ∧
      (RegisterStoreDecoders sm orderR).ParamChanges = sm.ParamChanges) ∧
    ((RandomizedSimParamChanges sm orderP cdc seed).Modules = sm.Modules ∧
      (RandomizedSimParamChanges sm orderP cdc seed).StoreDecoders = sm.StoreDecoders) ∧
    ((GenerateGenesisStatesOn sm orderG cdc r genesisState).1 = sm ∧
      (GenerateGenesisStatesOn sm orderG cdc r genesisState).1.Modules = sm.Modules ∧
      (GenerateGenesisStatesOn sm orderG cdc r genesisState).1.StoreDecoders
        = sm.StoreDecoders ∧
      (GenerateGenesisStatesOn sm orderG cdc r genesisState).1.ParamChanges
        = sm.ParamChanges ∧
      (GenerateGenesisStatesOn sm orderG cdc r genesisState).2
        = GenerateGenesisStates sm orderG cdc r genesisState) := by
  have hg : GenerateGenesisStatesOn sm orderG cdc r genesisState
      = (sm, GenerateGenesisStates sm orderG cdc r genesisState) :=
    foldl_genesisStepOn cdc orderG.entries sm (r, genesisState)
  refine ⟨foldl_registerStep_frame orderR.entries sm,
    foldl_paramsStep_frame cdc orderP.entries sm (E.NewRand seed), ?_⟩
  rw [hg]
  exact ⟨rfl, rfl, rfl, rfl, rfl⟩

/-! ## The registry after the registration pass -/

theorem insertAll_of_not_mem {κ ν : Type} [DecidableEq κ] (kvs : List (κ × ν)) (k : κ)
    (hk : k ∉ kvs.map Prod.fst) : ∀ m : GoMap κ ν, (m.insertAll kvs) k = m k := by
  induction kvs with
  | nil => intro m; rfl
  | cons kv kvs ih =>
    intro m
    rw [List.map_cons, List.mem_cons, not_or] at hk
    unfold GoMap.insertAll
    rw [List.foldl_cons]
    have := ih hk.2 (m.insert kv.1 kv.2)
    unfold GoMap.insertAll at this
    rw [this]
    simp [GoMap.insert, hk.1]

theorem insertAll_of_mem {κ ν : Type} [DecidableEq κ] (kvs : List (κ × ν)) (k : κ)
    (hk : k ∈ kvs.map Prod.fst) :
    ∀ m m2 : GoMap κ ν, (m.insertAll kvs) k = (m2.insertAll kvs) k ∧ (m.insertAll kvs) k ≠ none := by
  induction kvs with
  | nil => simp at hk
  | cons kv kvs ih =>
    intro m m2
    have hstep : ∀ m : GoMap κ ν,
        m.insertAll (kv :: kvs) = (m.insert kv.1 kv.2).insertAll kvs := fun _ => rfl
    rw [hstep m, hstep m2]
    by_cases hin : k ∈ kvs.map Prod.fst
    · exact ih hin _ _
    · rw [insertAll_of_not_mem kvs k hin, insertAll_of_not_mem kvs k hin]
      have hkk : k = kv.1 := by
        rw [List.map_cons, List.mem_cons] at hk
        exact hk.resolve_right hin
      simp [GoMap.insert, hkk]

theorem foldl_register_of_not_contributed {E : SimEnv}
    (contrib : String × AppModule E → List (String × E.StoreDecoder)) (l : ModuleMap E)
    (k : String)
    (hins : ∀ e ∈ l, ∀ reg, e.2.RegisterStoreDecoder reg = GoMap.insertAll reg (contrib e))
    (hk : ∀ e ∈ l, k ∉ (contrib e).map Prod.fst) :
    ∀ reg : StoreDecoderRegistry E,
      (l.foldl (fun reg e => e.2.RegisterStoreDecoder reg) reg) k = reg k := by
  induction l with
  | nil => intro reg; rfl
  | cons e l ih =>
    intro reg
    rw [List.foldl_cons,
      ih (fun e2 h2 => hins e2 (List.mem_cons_of_mem _ h2))
        (fun e2 h2 => hk e2 (List.mem_cons_of_mem _ h2)),
      hins e (List.mem_cons_self _ _)]
    exact insertAll_of_not_mem (contrib e) k (hk e (List.mem_cons_self _ _)) reg

/-- The value of a namespace after the loop is what the last module that
contributes it writes, whatever the registry was before. -/
theorem foldl_register_last {E : SimEnv}
    (contrib : String × AppModule E → List (String × E.StoreDecoder))
    (pre post : ModuleMap E) (e : String × AppModule E) (k : String)
    (hins : ∀ e2 ∈ pre ++ e :: post, ∀ reg,
      e2.2.RegisterStoreDecoder reg = GoMap.insertAll reg (contrib e2))
    (hke : k ∈ (contrib e).map Prod.fst)
    (hpost : ∀ e2 ∈ post, k ∉ (contrib e2).map Prod.fst) :
    ∀ reg reg2 : StoreDecoderRegistry E,
      ((pre ++ e :: post).foldl (fun reg e => e.2.RegisterStoreDecoder reg) reg) k
          = (e.2.RegisterStoreDecoder reg2) k ∧
        ((pre ++ e :: post).foldl (fun reg e => e.2.RegisterStoreDecoder reg) reg) k
          ≠ none := by
  intro reg reg2
  have hpostins : ∀ e2 ∈ post, ∀ reg,
      e2.2.RegisterStoreDecoder reg = GoMap.insertAll reg (contrib e2) :=
    fun e2 h2 => hins e2 (List.mem_append_right _ (List.mem_cons_of_mem _ h2))
  have he := hins e (List.mem_append_right _ (List.mem_cons_self _ _))
  rw [List.foldl_append, List.foldl_cons,
    foldl_register_of_not_contributed contrib post k hpostins hpost, he, he reg2]
  exact insertAll_of_mem (contrib e) k hke _ reg2

theorem exists_last_contributor {E : SimEnv}
    (contrib : String × AppModule E → List (String × E.StoreDecoder)) (k : String)
    (l : ModuleMap E) (h : ∃ e ∈ l, k ∈ (contrib e).map Prod.fst) :
    ∃ pre e post, l = pre ++ e :: post ∧ k ∈ (contrib e).map Prod.fst ∧
      ∀ e2 ∈ post, k ∉ (contrib e2).map Prod.fst := by
  induction l with
  | nil => obtain ⟨e, he, _⟩ := h; cases he
  | cons x l ih =>
    by_cases hl : ∃ e ∈ l, k ∈ (contrib e).map Prod.fst
    · obtain ⟨pre, e, post, hsplit, hke, hpost⟩ := ih hl
      exact ⟨x :: pre, e, post, by rw [hsplit]; rfl, hke, hpost⟩
    · obtain ⟨e, he, hke⟩ := h
      rcases List.mem_cons.1 he with rfl | he
      · exact ⟨[], e, l, rfl, hke, fun e2 h2 hk2 => hl ⟨e2, h2, hk2⟩⟩
      · exact absurd ⟨e, he, hke⟩ hl

/-- Claim C15. When every module only inserts entries in the registry, after
`RegisterStoreDecoders` the namespaces present are those present before and
those contributed by the modules, a namespace contributed by no module keeps
its decoder, and a namespace contributed by several modules has the decoder
written by the module visited last among them, whatever was registered for
it before. The pass has no error result: no duplicate is rejected. -/
theorem RegisterStoreDecoders_last_write_wins {E : SimEnv} (sm : SimulationManager E)
    (order : RangeOrder sm.Modules)
    (contrib : String × AppModule E → List (String × E.StoreDecoder))
    (hins : ∀ e ∈ sm.Modules, ∀ reg,
      e.2.RegisterStoreDecoder reg = GoMap.insertAll reg (contrib e)) :
    (∀ k, (RegisterStoreDecoders sm order).StoreDecoders k ≠ none ↔
      (sm.StoreDecoders k ≠ none ∨ ∃ e ∈ sm.Modules, k ∈ (contrib e).map Prod.fst)) ∧
    (∀ k, (∀ e ∈ sm.Modules, k ∉ (contrib e).map Prod.fst) →
      (RegisterStoreDecoders sm order).StoreDecoders k = sm.StoreDecoders k) ∧
    (∀ pre e post k, order.entries = pre ++ e :: post →
      k ∈ (contrib e).map Prod.fst → (∀ e2 ∈ post, k ∉ (contrib e2).map Prod.fst) →
      ∀ reg : StoreDecoderRegistry E,
        (RegisterStoreDecoders sm order).StoreDecoders k
          = (e.2.RegisterStoreDecoder reg) k) := by
  have hfold : (RegisterStoreDecoders sm order).StoreDecoders
      = order.entries.foldl (fun reg e => e.2.RegisterStoreDecoder reg) sm.StoreDecoders :=
    foldl_registerStep_storeDecoders order.entries sm
  have hinsO : ∀ e ∈ order.entries, ∀ reg,
      e.2.RegisterStoreDecoder reg = GoMap.insertAll reg (contrib e) :=
    fun e he => hins e (order.perm.mem_iff.1 he)
  have hkeep : ∀ k, (∀ e ∈ sm.Modules, k ∉ (contrib e).map Prod.fst) →
      (RegisterStoreDecoders sm order).StoreDecoders k = sm.StoreDecoders k := by
    intro k hk
    rw [hfold]
    exact foldl_register_of_not_contributed contrib order.entries k hinsO
      (fun e he => hk e (order.perm.mem_iff.1 he)) _
  have hlast : ∀ pre e post k, order.entries = pre ++ e :: post →
      k ∈ (contrib e).map Prod.fst → (∀ e2 ∈ post, k ∉ (contrib e2).map Prod.fst) →
      ∀ reg : StoreDecoderRegistry E,
        (RegisterStoreDecoders sm order).StoreDecoders k = (e.2.RegisterStoreDecoder reg) k ∧
        (RegisterStoreDecoders sm order).StoreDecoders k ≠ none := by
    intro pre e post k hsplit hke hpost reg
    rw [hfold, hsplit]
    exact foldl_register_last contrib pre post e k (hsplit ▸ hinsO) hke hpost _ reg
  have hpresent : ∀ k, (∃ e ∈ sm.Modules, k ∈ (contrib e).map Prod.fst) →
      (RegisterStoreDecoders sm order).StoreDecoders k ≠ none := by
    rintro k ⟨e, he, hke⟩
    obtain ⟨pre, e2, post, hsplit, hke2, hpost⟩ :=
      exists_last_contributor contrib k order.entries ⟨e, order.perm.mem_iff.2 he, hke⟩
    exact (hlast pre e2 post k hsplit hke2 hpost sm.StoreDecoders).2
  refine ⟨?_, hkeep, fun pre e post k h1 h2 h3 reg => (hlast pre e post k h1 h2 h3 reg).1⟩
  intro k
  by_cases hc : ∃ e ∈ sm.Modules, k ∈ (contrib e).map Prod.fst
  · exact ⟨fun _ => Or.inr hc, fun _ => hpresent k hc⟩
  · have hno : ∀ e ∈ sm.Modules, k ∉ (contrib e).map Prod.fst :=
      fun e he hke => hc ⟨e, he, hke⟩
    rw [hkeep k hno]
    exact ⟨fun h => Or.inl h, fun h => h.resolve_right hc⟩

/-- The instance of C15 at two modules that register different decoders for
`bank`, visited in the order `x`, `y`: the decoder of `y` is registered. -/
theorem RegisterStoreDecoders_last_write_wins_witness :
    (RegisterStoreDecoders (NewSimulationManager bankModules)
        (bankOrderXY (NewSimulationManager bankModules) rfl)).StoreDecoders "bank"
      = some "decodeY" :=
  (RegisterStoreDecoders_last_write_wins (NewSimulationManager bankModules)
    (bankOrderXY (NewSimulationManager bankModules) rfl) bankContrib
    (by
      intro e he reg
      simp only [NewSimulationManager, bankModules, List.mem_cons, List.mem_singleton,
        List.not_mem_nil, or_false] at he
      rcases he with rfl | rfl <;> rfl)).2.2
    [("x", decoderModule "bank" "decodeX")] ("y", decoderModule "bank" "decodeY") [] "bank"
    rfl (by decide) (fun _ h => absurd h (List.not_mem_nil _)) GoMap.empty

/-- Claim C16, refuted as stated. The modules `x` and `y` each insert one
fixed entry for `bank`. A first call visits `x`, `y` and leaves the decoder
of `y`; a second call visits `y`, `x` and leaves the decoder of `x`: the
registry after two calls differs from the registry after one. -/
theorem RegisterStoreDecoders_twice_counterexample :
    (∀ e ∈ (NewSimulationManager bankModules).Modules, ∀ reg,
      e.2.RegisterStoreDecoder reg = GoMap.insertAll reg (bankContrib e)) ∧
    (RegisterStoreDecoders (NewSimulationManager bankModules)
        (bankOrderXY (NewSimulationManager bankModules) rfl)).StoreDecoders "bank"
      = some "decodeY" ∧
    (RegisterStoreDecoders
        (RegisterStoreDecoders (NewSimulationManager bankModules)
          (bankOrderXY (NewSimulationManager bankModules) rfl))
        (bankOrderYX _ rfl)).StoreDecoders "bank"
      = some "decodeX" ∧
    (RegisterStoreDecoders
        (RegisterStoreDecoders (NewSimulationManager bankModules)
          (bankOrderXY (NewSimulationManager bankModules) rfl))
        (bankOrderYX _ rfl)).StoreDecoders
      ≠ (RegisterStoreDecoders (NewSimulationManager bankModules)
          (bankOrderXY (NewSimulationManager bankModules) rfl)).StoreDecoders := by
  refine ⟨?_, rfl, rfl, ?_⟩
  · intro e he reg
    simp only [NewSimulationManager, bankModules, List.mem_cons, List.mem_singleton,
      List.not_mem_nil, or_false] at he
    rcases he with rfl | rfl <;> rfl
  · intro h
    have hbank := congrFun h "bank"
    exact absurd hbank (by decide)

/-- Claim C16, amended. When every module inserts a fixed set of entries, the
registry after two consecutive calls of `RegisterStoreDecoders` equals the
registry after one call, provided the second call visits the modules in the
order of the first, or any two modules that contribute the same namespace
write the same decoder for it. -/
theorem RegisterStoreDecoders_twice {E : SimEnv} (sm : SimulationManager E)
    (order1 : RangeOrder sm.Modules)
    (order2 : RangeOrder (RegisterStoreDecoders sm order1).Modules)
    (contrib : String × AppModule E → List (String × E.StoreDecoder))
    (hins : ∀ e ∈ sm.Modules, ∀ reg,
      e.2.RegisterStoreDecoder reg = GoMap.insertAll reg (contrib e))
    (hsame : order2.entries = order1.entries ∨
      ∀ e1 ∈ sm.Modules, ∀ e2 ∈ sm.Modules, ∀ k,
        k ∈ (contrib e1).map Prod.fst → k ∈ (contrib e2).map Prod.fst →
        ∀ reg, (e1.2.RegisterStoreDecoder reg) k = (e2.2.RegisterStoreDecoder reg) k) :
    (RegisterStoreDecoders (RegisterStoreDecoders sm order1) order2).StoreDecoders
      = (RegisterStoreDecoders sm order1).StoreDecoders := by
  have hmods : (RegisterStoreDecoders sm order1).Modules = sm.Modules :=
    RegisterStoreDecoders_modules sm order1
  have hins1 : ∀ e ∈ order1.entries, ∀ reg,
      e.2.RegisterStoreDecoder reg = GoMap.insertAll reg (contrib e) :=
    fun e he => hins e (order1.perm.mem_iff.1 he)
  have hmem2 : ∀ e ∈ order2.entries, e ∈ sm.Modules :=
    fun e he => hmods ▸ order2.perm.mem_iff.1 he
  have hins2 : ∀ e ∈ order2.entries, ∀ reg,
      e.2.RegisterStoreDecoder reg = GoMap.insertAll reg (contrib e) :=
    fun e he => hins e (hmem2 e he)
  have hfold2 : (RegisterStoreDecoders (RegisterStoreDecoders sm order1) order2).StoreDecoders
      = order2.entries.foldl (fun reg e => e.2.RegisterStoreDecoder reg)
          (RegisterStoreDecoders sm order1).StoreDecoders :=
    foldl_registerStep_storeDecoders order2.entries (RegisterStoreDecoders sm order1)
  have hfold1 : (RegisterStoreDecoders sm order1).StoreDecoders
      = order1.entries.foldl (fun reg e => e.2.RegisterStoreDecoder reg) sm.StoreDecoders :=
    foldl_registerStep_storeDecoders order1.entries sm
  rw [hfold2]
  funext k
  by_cases hc : ∃ e ∈ order2.entries, k ∈ (contrib e).map Prod.fst
  · obtain ⟨pre2, e2, post2, hsplit2, hke2, hpost2⟩ :=
      exists_last_contributor contrib k order2.entries hc
    have he2 : e2 ∈ order2.entries := by
      rw [hsplit2]; exact List.mem_append_right _ (List.mem_cons_self _ _)
    have hleft := fun reg => (foldl_register_last contrib pre2 post2 e2 k
      (hsplit2 ▸ hins2) hke2 hpost2 reg sm.StoreDecoders).1
    rw [hsplit2, hleft, hfold1]
    rcases hsame with hsame | hsame
    · rw [← hsame, hsplit2, hleft]
    · obtain ⟨pre1, e1, post1, hsplit1, hke1, hpost1⟩ :=
        exists_last_contributor contrib k order1.entries
          ⟨e2, order1.perm.mem_iff.2 (hmem2 e2 he2), hke2⟩
      have he1 : e1 ∈ order1.entries := by
        rw [hsplit1]; exact List.mem_append_right _ (List.mem_cons_self _ _)
      rw [hsplit1, (foldl_register_last contrib pre1 post1 e1 k
        (hsplit1 ▸ hins1) hke1 hpost1 sm.StoreDecoders sm.StoreDecoders).1]
      exact (hsame e1 (order1.perm.mem_iff.1 he1) e2 (hmem2 e2 he2) k hke1 hke2 _).symm
  · exact foldl_register_of_not_contributed contrib order2.entries k hins2
      (fun e he hke => hc ⟨e, he, hke⟩) _

/-- The instance of the amended C16 at two modules that register different
decoders for `bank`, visited in the order `x`, `y` in both calls. -/
theorem RegisterStoreDecoders_twice_witness :
    (RegisterStoreDecoders
        (RegisterStoreDecoders (NewSimulationManager bankModules)
          (bankOrderXY (NewSimulationManager bankModules) rfl))
        (bankOrderXY _ rfl)).StoreDecoders
      = (RegisterStoreDecoders (NewSimulationManager bankModules)
          (bankOrderXY (NewSimulationManager bankModules) rfl)).StoreDecoders :=
  RegisterStoreDecoders_twice (NewSimulationManager bankModules)
    (bankOrderXY (NewSimulationManager bankModules) rfl) (bankOrderXY _ rfl) bankContrib
    (by
      intro e he reg
      simp only [NewSimulationManager, bankModules, List.mem_cons, List.mem_singleton,
        List.not_mem_nil, or_false] at he
      rcases he with rfl | rfl <;> rfl)
    (Or.inl rfl)

/-! ## The genesis map after the genesis pass -/

theorem foldl_genesis_keep {E : SimEnv} (cdc : E.Codec) (l : ModuleMap E)
    (hown : ∀ e ∈ l, OwnFragment cdc e) (k : String) (hk : k ∉ l.names) :
    ∀ st : E.Rand × GenesisMap E,
      (l.foldl (fun st e => genesisStep cdc st e.2) st).2 k = st.2 k := by
  induction l with
  | nil => intro st; rfl
  | cons e l ih =>
    intro st
    simp only [ModuleMap.names, List.map_cons, List.mem_cons, not_or] at hk
    rw [List.foldl_cons, ih (fun e2 h2 => hown e2 (List.mem_cons_of_mem _ h2)) hk.2]
    exact (hown e (List.mem_cons_self _ _) st.1 st.2).2 k hk.1

theorem foldl_genesis_present {E : SimEnv} (cdc : E.Codec) (l : ModuleMap E)
    (hown : ∀ e ∈ l, OwnFragment cdc e) (k : String) :
    ∀ st : E.Rand × GenesisMap E, st.2 k ≠ none →
      (l.foldl (fun st e => genesisStep cdc st e.2) st).2 k ≠ none := by
  induction l with
  | nil => intro st h; exact h
  | cons e l ih =>
    intro st h
    rw [List.foldl_cons]
    apply ih (fun e2 h2 => hown e2 (List.mem_cons_of_mem _ h2))
    have he := hown e (List.mem_cons_self _ _) st.1 st.2
    by_cases hk : k = e.1
    · rw [hk]; exact he.1
    · unfold genesisStep; rw [he.2 k hk]; exact h

theorem foldl_genesis_own {E : SimEnv} (cdc : E.Codec) (l : ModuleMap E)
    (hown : ∀ e ∈ l, OwnFragment cdc e) :
    ∀ st : E.Rand × GenesisMap E, ∀ e ∈ l,
      (l.foldl (fun st e => genesisStep cdc st e.2) st).2 e.1 ≠ none := by
  induction l with
  | nil => intro st e he; cases he
  | cons x l ih =>
    intro st e he
    rw [List.foldl_cons]
    have hl : ∀ e2 ∈ l, OwnFragment cdc e2 := fun e2 h2 => hown e2 (List.mem_cons_of_mem _ h2)
    rcases List.mem_cons.1 he with rfl | he
    · exact foldl_genesis_present cdc l hl e.1 _ (hown e (List.mem_cons_self _ _) st.1 st.2).1
    · exact ih hl _ e he

/-- Claim C17. `GenerateGenesisStates` is the left fold of the calls of
`GenerateGenesisState` over the pair of the randomness source and the genesis
map, in iteration order. When every module writes its fragment under its own
name and leaves the other keys as they were, the resulting map has a
fragment under the name of every registered module, and every key that is
not such a name has what it had before. -/
theorem GenerateGenesisStates_fragments {E : SimEnv} (sm : SimulationManager E)
    (order : RangeOrder sm.Modules) (cdc : E.Codec) (r : E.Rand) (genesisState : GenesisMap E)
    (hown : ∀ e ∈ sm.Modules, OwnFragment cdc e) :
    GenerateGenesisStates sm order cdc r genesisState
      = order.entries.foldl (fun st e => e.2.GenerateGenesisState cdc st.1 st.2)
          (r, genesisState) ∧
    (∀ e ∈ sm.Modules, (GenerateGenesisStates sm order cdc r genesisState).2 e.1 ≠ none) ∧
    (∀ k, k ∉ sm.Modules.names →
      (GenerateGenesisStates sm order cdc r genesisState).2 k = genesisState k) := by
  have hownO : ∀ e ∈ order.entries, OwnFragment cdc e :=
    fun e he => hown e (order.perm.mem_iff.1 he)
  refine ⟨rfl, ?_, ?_⟩
  · intro e he
    exact foldl_genesis_own cdc order.entries hownO _ e (order.perm.mem_iff.2 he)
  · intro k hk
    refine foldl_genesis_keep cdc order.entries hownO k ?_ _
    intro hmem
    exact hk ((List.Perm.map Prod.fst order.perm).mem_iff.1 hmem)

/-! ## The scenario of three modules -/

theorem insert_insert_same {κ ν : Type} [DecidableEq κ] (m : GoMap κ ν) (k : κ) (v : ν) :
    (m.insert k v).insert k v = m.insert k v := by
  funext x
  unfold GoMap.insert
  by_cases hx : x = k <;> simp [hx]

theorem foldl_register_absorb {E : SimEnv} (ns : String) (d : E.StoreDecoder)
    (l : ModuleMap E)
    (hkind : ∀ e ∈ l, (∀ reg, e.2.RegisterStoreDecoder reg = reg) ∨
      (∀ reg, e.2.RegisterStoreDecoder reg = GoMap.insert reg ns d)) :
    ∀ reg : StoreDecoderRegistry E,
      l.foldl (fun reg e => e.2.RegisterStoreDecoder reg) (GoMap.insert reg ns d)
        = GoMap.insert reg ns d := by
  induction l with
  | nil => intro reg; rfl
  | cons e l ih =>
    intro reg
    have hl := ih (fun e2 h2 => hkind e2 (List.mem_cons_of_mem _ h2)) reg
    rw [List.foldl_cons]
    rcases hkind e (List.mem_cons_self _ _) with he | he
    · rw [he]; exact hl
    · rw [he, insert_insert_same]; exact hl

theorem foldl_register_single {E : SimEnv} (ns : String) (d : E.StoreDecoder)
    (l : ModuleMap E)
    (hkind : ∀ e ∈ l, (∀ reg, e.2.RegisterStoreDecoder reg = reg) ∨
      (∀ reg, e.2.RegisterStoreDecoder reg = GoMap.insert reg ns d))
    (hex : ∃ e ∈ l, ∀ reg, e.2.RegisterStoreDecoder reg = GoMap.insert reg ns d) :
    ∀ reg : StoreDecoderRegistry E,
      l.foldl (fun reg e => e.2.RegisterStoreDecoder reg) reg = GoMap.insert reg ns d := by
  induction l with
  | nil => obtain ⟨e, he, _⟩ := hex; cases he
  | cons x l ih =>
    intro reg
    have hl : ∀ e ∈ l, (∀ reg, e.2.RegisterStoreDecoder reg = reg) ∨
        (∀ reg, e.2.RegisterStoreDecoder reg = GoMap.insert reg ns d) :=
      fun e2 h2 => hkind e2 (List.mem_cons_of_mem _ h2)
    rw [List.foldl_cons]
    rcases hkind x (List.mem_cons_self _ _) with hx | hx
    · rw [hx]
      obtain ⟨e, he, hins⟩ := hex
      rcases List.mem_cons.1 he with rfl | he
      · have h1 := hins reg
        rw [hx] at h1
        rw [h1, insert_insert_same]
        exact foldl_register_absorb ns d l hl reg
      · exact ih hl ⟨e, he, hins⟩ reg
    · rw [hx]; exact foldl_register_absorb ns d l hl reg

theorem paramBatch_silent {E : SimEnv} (cdc : E.Codec) (l : ModuleMap E)
    (hsilent : ∀ e ∈ l, ∀ r, (e.2.RandomizedParams cdc r).1 = []) :
    ∀ r : E.Rand, paramBatch cdc l r = [] := by
  induction l with
  | nil => intro r; rfl
  | cons e l ih =>
    intro r
    simp only [paramBatch]
    rw [hsilent e (List.mem_cons_self _ _),
      ih (fun e2 h2 => hsilent e2 (List.mem_cons_of_mem _ h2))]
    rfl

theorem paramBatch_single {E : SimEnv} (cdc : E.Codec) (pre post : ModuleMap E)
    (e : String × AppModule E)
    (hpre : ∀ e2 ∈ pre, ∀ r, (e2.2.RandomizedParams cdc r).1 = [])
    (hpost : ∀ e2 ∈ post, ∀ r, (e2.2.RandomizedParams cdc r).1 = []) :
    ∀ r : E.Rand, ∃ r2 : E.Rand,
      paramBatch cdc (pre ++ e :: post) r = (e.2.RandomizedParams cdc r2).1 := by
  induction pre with
  | nil =>
    intro r
    refine ⟨r, ?_⟩
    simp only [List.nil_append, paramBatch]
    rw [paramBatch_silent cdc post hpost, List.append_nil]
  | cons x pre ih =>
    intro r
    obtain ⟨r2, h2⟩ := ih (fun e2 h2 => hpre e2 (List.mem_cons_of_mem _ h2))
      (x.2.RandomizedParams cdc r).2
    refine ⟨r2, ?_⟩
    show (x.2.RandomizedParams cdc r).1
      ++ paramBatch cdc (pre ++ e :: post) (x.2.RandomizedParams cdc r).2 = _
    rw [hpre x (List.mem_cons_self _ _), h2]
    rfl

/-- Claim C11. A manager is freshly constructed over three modules `A`, `B`,
`C`: only `C` inserts an entry in the registry, `A` and `B` leave it as it
is; `A` and `C` return no parameter change, `B` returns two. After
`RegisterStoreDecoders` and `RandomizedSimParamChanges` with seed 42, in any
iteration orders, the registry holds the entry of `C` and nothing else, and
`ParamChanges` is what `B` returned, two candidates in the order of `B`. -/
theorem scenario_three_modules {E : SimEnv} (nA nB nC : String) (A B C : AppModule E)
    (ns : String) (d : E.StoreDecoder) (cdc : E.Codec)
    (hA : ∀ reg, A.RegisterStoreDecoder reg = reg)
    (hB : ∀ reg, B.RegisterStoreDecoder reg = reg)
    (hC : ∀ reg, C.RegisterStoreDecoder reg = GoMap.insert reg ns d)
    (hAp : ∀ r, (A.RandomizedParams cdc r).1 = [])
    (hCp : ∀ r, (C.RandomizedParams cdc r).1 = [])
    (hBp : ∀ r, (B.RandomizedParams cdc r).1.length = 2)
    (orderR : RangeOrder (NewSimulationManager [(nA, A), (nB, B), (nC, C)]).Modules)
    (orderP : RangeOrder (RegisterStoreDecoders
      (NewSimulationManager [(nA, A), (nB, B), (nC, C)]) orderR).Modules) :
    (∀ k, (registerThenRandomize [(nA, A), (nB, B), (nC, C)] orderR orderP cdc 42).StoreDecoders
        k = if k = ns then some d else none) ∧
    (∃ r, (registerThenRandomize [(nA, A), (nB, B), (nC, C)] orderR orderP cdc 42).ParamChanges
        = (B.RandomizedParams cdc r).1) ∧
    (registerThenRandomize [(nA, A), (nB, B), (nC, C)] orderR orderP cdc 42).ParamChanges.length
      = 2 := by
  have hmodsR : (RegisterStoreDecoders
      (NewSimulationManager [(nA, A), (nB, B), (nC, C)]) orderR).Modules
      = [(nA, A), (nB, B), (nC, C)] := RegisterStoreDecoders_modules _ orderR
  have hpermR : orderR.entries.Perm [(nA, A), (nB, B), (nC, C)] := orderR.perm
  have hpermP : orderP.entries.Perm [(nA, A), (nB, B), (nC, C)] :=
    orderP.perm.trans (List.Perm.of_eq hmodsR)
  -- the registry
  have hreg : (registerThenRandomize [(nA, A), (nB, B), (nC, C)] orderR orderP cdc
      42).StoreDecoders = GoMap.insert GoMap.empty ns d := by
    unfold registerThenRandomize
    rw [show (RandomizedSimParamChanges _ orderP cdc 42).StoreDecoders = _ from
      (foldl_paramsStep_frame cdc orderP.entries _ _).2]
    rw [show (RegisterStoreDecoders _ orderR).StoreDecoders = _ from
      foldl_registerStep_storeDecoders orderR.entries _]
    apply foldl_register_single ns d orderR.entries
    · intro e he
      have hmem := hpermR.mem_iff.1 he
      simp only [List.mem_cons, List.mem_singleton, List.not_mem_nil, or_false] at hmem
      rcases hmem with rfl | rfl | rfl
      · exact Or.inl hA
      · exact Or.inl hB
      · exact Or.inr hC
    · exact ⟨(nC, C), hpermR.mem_iff.2 (by simp), hC⟩
  -- the parameter changes
  have hpc : (registerThenRandomize [(nA, A), (nB, B), (nC, C)] orderR orderP cdc
      42).ParamChanges = paramBatch cdc orderP.entries (E.NewRand 42) := by
    unfold registerThenRandomize
    rw [show (RandomizedSimParamChanges _ orderP cdc 42).ParamChanges = _ from
      foldl_paramsStep_paramChanges cdc orderP.entries _ (E.NewRand 42)]
    rw [show (RegisterStoreDecoders _ orderR).ParamChanges = _ from
      (foldl_registerStep_frame orderR.entries _).2]
    rfl
  have hBmem : (nB, B) ∈ orderP.entries := hpermP.mem_iff.2 (by simp)
  obtain ⟨pre, post, hsplit⟩ := List.append_of_mem hBmem
  have hrest : (pre ++ post).Perm [(nA, A), (nC, C)] := by
    have h1 : ((nB, B) :: (pre ++ post)).Perm [(nA, A), (nB, B), (nC, C)] :=
      (List.perm_middle.symm.trans (hsplit ▸ hpermP))
    exact (h1.trans (List.Perm.swap _ _ _)).cons_inv
  have hsil : ∀ e ∈ pre ++ post, ∀ r, (e.2.RandomizedParams cdc r).1 = [] := by
    intro e he
    have hmem := hrest.mem_iff.1 he
    simp only [List.mem_cons, List.mem_singleton, List.not_mem_nil, or_false] at hmem
    rcases hmem with rfl | rfl
    · exact hAp
    · exact hCp
  obtain ⟨r2, hr2⟩ := paramBatch_single cdc pre post (nB, B)
    (fun e he => hsil e (List.mem_append_left _ he))
    (fun e he => hsil e (List.mem_append_right _ he)) (E.NewRand 42)
  refine ⟨?_, ⟨r2, ?_⟩, ?_⟩
  · intro k
    rw [hreg]
    rfl
  · rw [hpc, hsplit, hr2]
  · rw [hpc, hsplit, hr2]
    exact hBp r2

/-- The instance of C11 at the modules `a`, `b`, `c` of `scenarioModules`,
both passes visiting them in the order `c`, `a`, `b`. -/
theorem scenario_three_modules_witness :
    (registerThenRandomize scenarioModules (scenarioOrder _ rfl) (scenarioOrder _ rfl)
        (0 : Nat) 42).StoreDecoders "c" = some "decodeC" ∧
    (registerThenRandomize scenarioModules (scenarioOrder _ rfl) (scenarioOrder _ rfl)
        (0 : Nat) 42).StoreDecoders "a" = none ∧
    (registerThenRandomize scenarioModules (scenarioOrder _ rfl) (scenarioOrder _ rfl)
        (0 : Nat) 42).ParamChanges = [("b/first", 42), ("b/second", 43)] :=
  have h := scenario_three_modules "a" "b" "c" silentModule paramsModule
    (decoderModule "c" "decodeC") "c" "decodeC" (0 : Nat) (fun _ => rfl) (fun _ => rfl)
    (fun _ => rfl) (fun _ => rfl) (fun _ => rfl) (fun _ => rfl)
    (scenarioOrder _ rfl) (scenarioOrder _ rfl)
  ⟨h.1 "c", h.1 "a", rfl⟩

/-! ## A call that panics -/

/-- When the bodies of the entries `pre` return and the body of the next
entry `e` panics with `p`, the loop ends with `p` and the calls made are
those of `pre` and of `e`. -/
theorem rangeMayPanic_stops {E : SimEnv} {σ Ω : Type}
    (body : σ → String × AppModule E → Except Ω σ) (pre post : ModuleMap E)
    (e : String × AppModule E) (p : Ω) :
    ∀ s s2 : σ, rangeMayPanic body pre s = (Except.ok s2, pre) →
      body s2 e = Except.error p →
      rangeMayPanic body (pre ++ e :: post) s = (Except.error p, pre ++ [e]) := by
  induction pre with
  | nil =>
    intro s s2 hpre he
    simp only [rangeMayPanic, Prod.mk.injEq, Except.ok.injEq, and_true] at hpre
    subst hpre
    simp only [List.nil_append, rangeMayPanic, he]
  | cons x pre ih =>
    intro s s2 hpre he
    simp only [List.cons_append, rangeMayPanic]
    simp only [rangeMayPanic] at hpre
    cases hx : body s x with
    | error q => rw [hx] at hpre; simp at hpre
    | ok s1 =>
      rw [hx] at hpre
      simp only [Prod.mk.injEq, List.cons.injEq, true_and] at hpre
      have hrun : rangeMayPanic body pre s1 = (Except.ok s2, pre) :=
        Prod.ext hpre.1 hpre.2
      have hrest := ih s1 s2 hrun he
      show ((rangeMayPanic body (pre ++ e :: post) s1).1,
        x :: (rangeMayPanic body (pre ++ e :: post) s1).2) = _
      rw [hrest]

/-- When no body panics the loop returns what the loop without panics
computes, after a call for every entry. -/
theorem rangeMayPanic_of_no_panic {E : SimEnv} {σ Ω : Type}
    (body : σ → String × AppModule E → Except Ω σ) (step : σ → AppModule E → σ)
    (hbody : ∀ s e, body s e = Except.ok (step s e.2)) (l : ModuleMap E) :
    ∀ s : σ, rangeMayPanic body l s = (Except.ok (l.foldl (fun st e => step st e.2) s), l) := by
  induction l with
  | nil => intro s; rfl
  | cons e l ih =>
    intro s
    simp only [rangeMayPanic, hbody, ih, List.foldl_cons]

/-- With no panic the three passes that may panic return the results of the
three passes. -/
theorem passes_of_no_panic {E : SimEnv} {Ω : Type} (sm : SimulationManager E)
    (orderR orderG orderP : RangeOrder sm.Modules) (cdc : E.Codec) (r : E.Rand)
    (genesisState : GenesisMap E) (seed : Int) :
    RegisterStoreDecodersMayPanic (Panics.never : Panics E Ω) sm orderR
      = (Except.ok (RegisterStoreDecoders sm orderR), orderR.entries) ∧
    GenerateGenesisStatesMayPanic (Panics.never : Panics E Ω) sm orderG cdc r genesisState
      = (Except.ok (GenerateGenesisStates sm orderG cdc r genesisState), orderG.entries) ∧
    ((RandomizedSimParamChangesMayPanic (Panics.never : Panics E Ω) sm orderP cdc seed).1.map
        Prod.fst = Except.ok (RandomizedSimParamChanges sm orderP cdc seed) ∧
      (RandomizedSimParamChangesMayPanic (Panics.never : Panics E Ω) sm orderP cdc seed).2
        = orderP.entries) := by
  refine ⟨?_, ?_, ?_⟩
  · exact rangeMayPanic_of_no_panic _ registerStep (fun _ _ => rfl) orderR.entries sm
  · exact rangeMayPanic_of_no_panic _ (genesisStep cdc) (fun _ _ => rfl) orderG.entries _
  · have h := rangeMayPanic_of_no_panic
      (paramsStepMayPanic (Panics.never : Panics E Ω) cdc) (paramsStep cdc)
      (fun _ _ => rfl) orderP.entries (sm, E.NewRand seed)
    unfold RandomizedSimParamChangesMayPanic
    simp only [h]
    exact ⟨rfl, trivial⟩

/-- Claim C18. In each of the three passes, when the calls for the entries
visited first return and the call for the next entry panics, the pass ends
there: its outcome is that same panic value, untouched, and the calls made
are those for the entries visited first and the one that panicked, none for
an entry later in iteration order. -/
theorem passes_stop_at_panic {E : SimEnv} {Ω : Type} (panics : Panics E Ω)
    (sm : SimulationManager E) (orderR orderG orderP : RangeOrder sm.Modules) (cdc : E.Codec)
    (r : E.Rand) (genesisState : GenesisMap E) (seed : Int) :
    (∀ pre e post sm2 p, orderR.entries = pre ++ e :: post →
      rangeMayPanic (registerStepMayPanic panics) pre sm = (Except.ok sm2, pre) →
      panics.RegisterStoreDecoder e.1 sm2.StoreDecoders = some p →
      RegisterStoreDecodersMayPanic panics sm orderR = (Except.error p, pre ++ [e])) ∧
    (∀ pre e post st2 p, orderG.entries = pre ++ e :: post →
      rangeMayPanic (genesisStepMayPanic panics cdc) pre (r, genesisState)
        = (Except.ok st2, pre) →
      panics.GenerateGenesisState e.1 cdc st2.1 st2.2 = some p →
      GenerateGenesisStatesMayPanic panics sm orderG cdc r genesisState
        = (Except.error p, pre ++ [e])) ∧
    (∀ pre e post st2 p, orderP.entries = pre ++ e :: post →
      rangeMayPanic (paramsStepMayPanic panics cdc) pre (sm, E.NewRand seed)
        = (Except.ok st2, pre) →
      panics.RandomizedParams e.1 cdc st2.2 = some p →
      RandomizedSimParamChangesMayPanic panics sm orderP cdc seed
        = (Except.error p, pre ++ [e])) := by
  refine ⟨?_, ?_, ?_⟩
  · intro pre e post sm2 p hsplit hpre hp
    unfold RegisterStoreDecodersMayPanic
    rw [hsplit]
    exact rangeMayPanic_stops _ pre post e p sm sm2 hpre
      (by simp only [registerStepMayPanic, hp])
  · intro pre e post st2 p hsplit hpre hp
    unfold GenerateGenesisStatesMayPanic
    rw [hsplit]
    exact rangeMayPanic_stops _ pre post e p _ st2 hpre
      (by simp only [genesisStepMayPanic, hp])
  · intro pre e post st2 p hsplit hpre hp
    unfold RandomizedSimParamChangesMayPanic
    rw [hsplit]
    exact rangeMayPanic_stops _ pre post e p _ st2 hpre
      (by simp only [paramsStepMayPanic, hp])

/-- The instance of C18 at the modules `c`, `a`, `b` visited in this order by
the parameter-change pass, where the call of `a` panics with `boom`: the
outcome is `boom` and `b` is not called. -/
theorem passes_stop_at_panic_witness :
    RandomizedSimParamChangesMayPanic panicAtA (NewSimulationManager scenarioModules)
        (scenarioOrder _ rfl) (0 : Nat) 42
      = (Except.error "boom", [("c", decoderModule "c" "decodeC"), ("a", silentModule)]) :=
  (passes_stop_at_panic panicAtA (NewSimulationManager scenarioModules)
    (scenarioOrder _ rfl) (scenarioOrder _ rfl) (scenarioOrder _ rfl) (0 : Nat) (42 : Int)
    GoMap.empty 42).2.2
    [("c", decoderModule "c" "decodeC")] ("a", silentModule) [("b", paramsModule)]
    (NewSimulationManager scenarioModules, (42 : Int)) "boom" rfl rfl rfl

/-! ## Several modules writing their fragments -/

theorem fragmentModule_ownFragment (cdc : Nat) (name frag : String) :
    OwnFragment (E := counterEnv) cdc (name, fragmentModule name frag) := by
  intro r g
  refine ⟨by simp [fragmentModule, GoMap.insert], ?_⟩
  intro k hk
  simp only [fragmentModule, GoMap.insert]
  exact if_neg hk

/-- The instance of C17 at the modules `auth` and `bank`, visited in the
order `bank`, `auth`, on a genesis map that holds a fragment under `gov`:
both names have a fragment afterwards and `gov` has what it had. -/
theorem GenerateGenesisStates_fragments_witness :
    (GenerateGenesisStates (NewSimulationManager authBank) authBankReversed (0 : Nat)
        (42 : Int) (GoMap.insert GoMap.empty "gov" "old")).2 "auth" ≠ none ∧
    (GenerateGenesisStates (NewSimulationManager authBank) authBankReversed (0 : Nat)
        (42 : Int) (GoMap.insert GoMap.empty "gov" "old")).2 "bank" ≠ none ∧
    (GenerateGenesisStates (NewSimulationManager authBank) authBankReversed (0 : Nat)
        (42 : Int) (GoMap.insert GoMap.empty "gov" "old")).2 "gov" = some "old" :=
  have h := GenerateGenesisStates_fragments (NewSimulationManager authBank) authBankReversed
    (0 : Nat) (42 : Int) (GoMap.insert GoMap.empty "gov" "old")
    (by
      intro e he
      simp only [NewSimulationManager, authBank, List.mem_cons, List.mem_singleton,
        List.not_mem_nil, or_false] at he
      rcases he with rfl | rfl
      · exact fragmentModule_ownFragment 0 "auth" "authState"
      · exact fragmentModule_ownFragment 0 "bank" "bankState")
  ⟨h.2.1 ("auth", fragmentModule "auth" "authState") (List.mem_cons_self _ _),
    h.2.1 ("bank", fragmentModule "bank" "bankState")
      (List.mem_cons_of_mem _ (List.mem_cons_self _ _)),
    h.2.2 "gov" (by decide)⟩

/-! ## Counting the calls of a pass by their marks -/

end Module
